import Mathlib

/-!
Verification development for the krace offline trace analyzer
(`script/dart.py`).  The definitions below are a shallow embedding of the
data model and the event handlers of `ExecAnalyzer`, translated from the
Python source: dictionaries become association lists (insertion order
preserved, as in Python dicts), dataclasses become structures, exceptions
raised by `_assert` become `Except.error`, and the transcript (`console`)
is modelled by a list of typed lines.
-/

/- ### Association lists (Python dict semantics) -/

def alLookup {α β : Type} [DecidableEq α] (l : List (α × β)) (k : α) : Option β :=
  match l with
  | [] => none
  | (k0, v) :: t => if k0 = k then some v else alLookup t k

def alInsert {α β : Type} [DecidableEq α] (l : List (α × β)) (k : α) (v : β) :
    List (α × β) :=
  match l with
  | [] => [(k, v)]
  | (k0, v0) :: t => if k0 = k then (k, v) :: t else (k0, v0) :: alInsert t k v

def alErase {α β : Type} [DecidableEq α] (l : List (α × β)) (k : α) :
    List (α × β) :=
  match l with
  | [] => []
  | (k0, v0) :: t => if k0 = k then t else (k0, v0) :: alErase t k

theorem alLookup_alInsert_self {α β : Type} [DecidableEq α]
    (l : List (α × β)) (k : α) (v : β) :
    alLookup (alInsert l k v) k = some v := by
  induction l with
  | nil => simp [alInsert, alLookup]
  | cons hd t ih =>
    obtain ⟨k0, v0⟩ := hd
    by_cases hk : k0 = k <;> simp [alInsert, alLookup, hk, ih]

theorem alLookup_alInsert_ne {α β : Type} [DecidableEq α]
    (l : List (α × β)) (k k2 : α) (v : β) (hne : k ≠ k2) :
    alLookup (alInsert l k v) k2 = alLookup l k2 := by
  induction l with
  | nil => simp [alInsert, alLookup, hne]
  | cons hd t ih =>
    obtain ⟨k0, v0⟩ := hd
    by_cases hk : k0 = k
    · subst hk; simp [alInsert, alLookup, hne]
    · simp [alInsert, alLookup, hk, ih]

theorem alLookup_alErase_ne {α β : Type} [DecidableEq α]
    (l : List (α × β)) (k k2 : α) (hne : k2 ≠ k) :
    alLookup (alErase l k) k2 = alLookup l k2 := by
  induction l with
  | nil => simp [alErase, alLookup]
  | cons hd t ih =>
    obtain ⟨k0, v0⟩ := hd
    by_cases hk : k0 = k
    · rw [alErase, if_pos hk]
      have hne2 : k0 ≠ k2 := by rw [hk]; exact Ne.symm hne
      conv_rhs => rw [alLookup]
      rw [if_neg hne2]
    · rw [alErase]
      simp only [if_neg hk]
      rw [alLookup, alLookup, ih]

theorem mem_alInsert {α β : Type} [DecidableEq α]
    (l : List (α × β)) (k : α) (v : β) (a : α × β) (ha : a ∈ alInsert l k v) :
    a = (k, v) ∨ a ∈ l := by
  induction l with
  | nil => simp [alInsert] at ha; simp [ha]
  | cons hd t ih =>
    obtain ⟨k0, v0⟩ := hd
    rw [alInsert] at ha
    by_cases hk : k0 = k
    · rw [if_pos hk] at ha
      rcases List.mem_cons.mp ha with h1 | h1
      · exact Or.inl h1
      · exact Or.inr (List.mem_cons_of_mem _ h1)
    · simp only [if_neg hk] at ha
      rcases List.mem_cons.mp ha with h1 | h1
      · exact Or.inr (by simp [h1])
      · rcases ih h1 with h2 | h2
        · exact Or.inl h2
        · exact Or.inr (List.mem_cons_of_mem _ h2)

theorem mem_alErase {α β : Type} [DecidableEq α]
    (l : List (α × β)) (k : α) (a : α × β) (ha : a ∈ alErase l k) : a ∈ l := by
  induction l with
  | nil => simp [alErase] at ha
  | cons hd t ih =>
    obtain ⟨k0, v0⟩ := hd
    rw [alErase] at ha
    by_cases hk : k0 = k
    · rw [if_pos hk] at ha
      exact List.mem_cons_of_mem _ ha
    · rw [if_neg hk] at ha
      rcases List.mem_cons.mp ha with h1 | h1
      · simp [h1]
      · exact List.mem_cons_of_mem _ (ih h1)

/-- Keys occur at most once: the representation invariant of every map
built from a Python dict. -/
def NoDupKeys {α β : Type} (l : List (α × β)) : Prop :=
  l.Pairwise (fun x y => x.1 ≠ y.1)

theorem NoDupKeys_alInsert {α β : Type} [DecidableEq α]
    (l : List (α × β)) (k : α) (v : β) (h : NoDupKeys l) :
    NoDupKeys (alInsert l k v) := by
  induction l with
  | nil => simp [alInsert, NoDupKeys]
  | cons hd t ih =>
    obtain ⟨k0, v0⟩ := hd
    rw [NoDupKeys, List.pairwise_cons] at h
    by_cases hk : k0 = k
    · rw [alInsert, if_pos hk]
      rw [NoDupKeys, List.pairwise_cons]
      exact ⟨fun a ha => hk ▸ h.1 a ha, h.2⟩
    · rw [alInsert]
      simp only [if_neg hk]
      rw [NoDupKeys, List.pairwise_cons]
      refine ⟨fun a ha => ?_, ih h.2⟩
      rcases mem_alInsert t k v a ha with h1 | h1
      · subst h1; exact hk
      · exact h.1 a h1

theorem NoDupKeys_alErase {α β : Type} [DecidableEq α]
    (l : List (α × β)) (k : α) (h : NoDupKeys l) :
    NoDupKeys (alErase l k) := by
  induction l with
  | nil => simp [alErase, NoDupKeys]
  | cons hd t ih =>
    obtain ⟨k0, v0⟩ := hd
    rw [NoDupKeys, List.pairwise_cons] at h
    by_cases hk : k0 = k
    · rw [alErase, if_pos hk]
      exact h.2
    · rw [alErase, if_neg hk]
      rw [NoDupKeys, List.pairwise_cons]
      exact ⟨fun a ha => h.1 a (mem_alErase t k a ha), ih h.2⟩

theorem alLookup_none_of_key_notmem {α β : Type} [DecidableEq α]
    (l : List (α × β)) (k : α) (h : ∀ a ∈ l, a.1 ≠ k) :
    alLookup l k = none := by
  induction l with
  | nil => simp [alLookup]
  | cons hd t ih =>
    obtain ⟨k0, v0⟩ := hd
    rw [alLookup, if_neg (h (k0, v0) (List.mem_cons_self _ _))]
    exact ih fun a ha => h a (List.mem_cons_of_mem _ ha)

theorem alLookup_alErase_self {α β : Type} [DecidableEq α]
    (l : List (α × β)) (k : α) (h : NoDupKeys l) :
    alLookup (alErase l k) k = none := by
  induction l with
  | nil => simp [alErase, alLookup]
  | cons hd t ih =>
    obtain ⟨k0, v0⟩ := hd
    rw [NoDupKeys, List.pairwise_cons] at h
    by_cases hk : k0 = k
    · rw [alErase, if_pos hk]
      exact alLookup_none_of_key_notmem t k fun a ha => Ne.symm (hk ▸ h.1 a ha)
    · rw [alErase]
      simp only [if_neg hk]
      rw [alLookup]
      simp only [if_neg hk]
      exact ih h.2

/- ### Execution units (dataclass `ExecUnit` of dart.py)

`deps : Dict[int, ExecUnit]` is a ptid-keyed map of unit snapshots and
`base : Optional[ExecUnit]`; since `ExecUnit` is recursive through these
two fields we use a mutual inductive (`DepList` is the ptid-keyed
association list, `UnitOpt` the optional unit). -/

mutual
inductive ExecUnit : Type where
  | mk : (ptid : Nat) → (ctxt : Option Nat) → (seq : Nat) → (clk : Nat) →
         (base : UnitOpt) → (deps : DepList) → ExecUnit
inductive UnitOpt : Type where
  | none : UnitOpt
  | some : ExecUnit → UnitOpt
inductive DepList : Type where
  | nil : DepList
  | cons : Nat → ExecUnit → DepList → DepList
end

def ExecUnit.ptid : ExecUnit → Nat | .mk p _ _ _ _ _ => p
def ExecUnit.ctxt : ExecUnit → Option Nat | .mk _ c _ _ _ _ => c
def ExecUnit.seq : ExecUnit → Nat | .mk _ _ s _ _ _ => s
def ExecUnit.clk : ExecUnit → Nat | .mk _ _ _ k _ _ => k
def ExecUnit.base : ExecUnit → UnitOpt | .mk _ _ _ _ b _ => b
def ExecUnit.deps : ExecUnit → DepList | .mk _ _ _ _ _ d => d

def ExecUnit.setCtxt : ExecUnit → Option Nat → ExecUnit
  | .mk p _ s k b d, c => .mk p c s k b d
def ExecUnit.setSeq : ExecUnit → Nat → ExecUnit
  | .mk p c _ k b d, s => .mk p c s k b d
def ExecUnit.setClk : ExecUnit → Nat → ExecUnit
  | .mk p c s _ b d, k => .mk p c s k b d
def ExecUnit.setBase : ExecUnit → UnitOpt → ExecUnit
  | .mk p c s k _ d, b => .mk p c s k b d
def ExecUnit.setDeps : ExecUnit → DepList → ExecUnit
  | .mk p c s k b _, d => .mk p c s k b d

/-- `ExecUnit.create(ptid)` of dart.py. -/
def ExecUnit.create (ptid : Nat) : ExecUnit :=
  .mk ptid none 0 0 .none .nil

/-- In the Python source `clone()` copies the unit; with value semantics
the snapshot is the value itself. -/
def ExecUnit.clone (u : ExecUnit) : ExecUnit := u

/-- Lookup in the ptid-keyed dependency map. -/
def depLookup : DepList → Nat → Option ExecUnit
  | .nil, _ => none
  | .cons k u t, p => if k = p then some u else depLookup t p

/-- Python dict assignment `deps[k] = u`: replace in place, else append. -/
def depInsert : DepList → Nat → ExecUnit → DepList
  | .nil, p, u => .cons p u .nil
  | .cons k v t, p, u => if k = p then .cons p u t else .cons k v (depInsert t p u)

theorem ExecUnit.deps_setDeps (u : ExecUnit) (d : DepList) :
    (u.setDeps d).deps = d := by
  cases u; rfl

theorem depLookup_depInsert_self : ∀ (l : DepList) (p : Nat) (u : ExecUnit),
    depLookup (depInsert l p u) p = some u
  | .nil, p, u => by simp [depInsert, depLookup]
  | .cons k v t, p, u => by
    by_cases hk : k = p <;>
      simp [depInsert, depLookup, hk, depLookup_depInsert_self t p u]

theorem depLookup_depInsert_ne : ∀ (l : DepList) (p k2 : Nat) (u : ExecUnit),
    p ≠ k2 → depLookup (depInsert l p u) k2 = depLookup l k2
  | .nil, p, k2, u, hne => by simp [depInsert, depLookup, hne]
  | .cons k v t, p, k2, u, hne => by
    by_cases hk : k = p
    · rw [depInsert, if_pos hk, depLookup, if_neg hne, depLookup,
        if_neg (fun h => hne (hk.symm.trans h))]
    · simp [depInsert, depLookup, hk, depLookup_depInsert_ne t p k2 u hne]

/-- `ExecUnit._happens_before_in_task` of dart.py. -/
def happens_before_in_task (self unit : ExecUnit) : Bool :=
  if self.seq < unit.seq then true
  else if self.seq = unit.seq ∧ self.clk ≤ unit.clk then true
  else false

/-- `ExecUnit.add_dep` of dart.py. -/
def ExecUnit.add_dep (self dep : ExecUnit) : ExecUnit :=
  match depLookup self.deps dep.ptid with
  | .none => self.setDeps (depInsert self.deps dep.ptid dep)
  | .some old =>
    if happens_before_in_task old dep then
      self.setDeps (depInsert self.deps dep.ptid dep)
    else
      self

/- ### Happens-before (`ExecUnit._happens_before`), with the memoization
dictionary `hist` keyed by the coordinate string `ptid-seq-clk`; the
string key is injectively determined by the triple. -/

abbrev Hist := List ((Nat × Nat × Nat) × Bool)

mutual
/-- `ExecUnit._happens_before` of dart.py (recursive case over the
destination unit, threading the memoization dict `hist`). -/
def hbAux (src : ExecUnit) (dst : ExecUnit) (h : Hist) : Bool × Hist :=
  match dst with
  | .mk dptid _ dseq dclk dbase ddeps =>
    match alLookup h (dptid, dseq, dclk) with
    | some r => (r, h)
    | none =>
      if src.ptid = dptid then
        let r := happens_before_in_task src dst
        (r, ((dptid, dseq, dclk), r) :: h)
      else
        match dbase with
        | .some b =>
          let p := hbAux src b h
          if p.1 then (true, ((dptid, dseq, dclk), true) :: p.2)
          else
            let q := hbDeps src ddeps p.2
            (q.1, ((dptid, dseq, dclk), q.1) :: q.2)
        | .none =>
          let q := hbDeps src ddeps h
          (q.1, ((dptid, dseq, dclk), q.1) :: q.2)

/-- The `for dep in unit.deps.values()` loop of `_happens_before`. -/
def hbDeps (src : ExecUnit) (l : DepList) (h : Hist) : Bool × Hist :=
  match l with
  | .nil => (false, h)
  | .cons _ d t =>
    let p := hbAux src d h
    if p.1 then (true, p.2) else hbDeps src t p.2
end

/-- `ExecUnit.happens_before` of dart.py: each top-level query starts
with an empty memoization dict. -/
def ExecUnit.happens_before (src dst : ExecUnit) : Bool := (hbAux src dst []).1

/- Branch equations for `hbAux` (the equation generator does not produce
them for the mutual definition when the `base` field is a variable). -/

theorem hbAux_hit (src : ExecUnit) (p : Nat) (c : Option Nat) (s k : Nat)
    (b : UnitOpt) (d : DepList) (h : Hist) (r : Bool)
    (hl : alLookup h (p, s, k) = some r) :
    hbAux src (.mk p c s k b d) h = (r, h) := by
  cases b <;> (rw [hbAux]; simp [hl])

theorem hbAux_same (src : ExecUnit) (p : Nat) (c : Option Nat) (s k : Nat)
    (b : UnitOpt) (d : DepList) (h : Hist)
    (hl : alLookup h (p, s, k) = none) (hp : src.ptid = p) :
    hbAux src (.mk p c s k b d) h =
      (happens_before_in_task src (.mk p c s k b d),
        ((p, s, k), happens_before_in_task src (.mk p c s k b d)) :: h) := by
  cases b <;> (rw [hbAux]; simp [hl, hp])

theorem hbAux_base (src : ExecUnit) (p : Nat) (c : Option Nat) (s k : Nat)
    (b : ExecUnit) (d : DepList) (h : Hist)
    (hl : alLookup h (p, s, k) = none) (hp : ¬ src.ptid = p) :
    hbAux src (.mk p c s k (.some b) d) h =
      (let q := hbAux src b h
       if q.1 then (true, ((p, s, k), true) :: q.2)
       else
         let q2 := hbDeps src d q.2
         (q2.1, ((p, s, k), q2.1) :: q2.2)) := by
  rw [hbAux]
  simp [hl, hp]

theorem hbAux_nobase (src : ExecUnit) (p : Nat) (c : Option Nat) (s k : Nat)
    (d : DepList) (h : Hist)
    (hl : alLookup h (p, s, k) = none) (hp : ¬ src.ptid = p) :
    hbAux src (.mk p c s k .none d) h =
      (let q2 := hbDeps src d h
       (q2.1, ((p, s, k), q2.1) :: q2.2)) := by
  rw [hbAux]
  simp [hl, hp]

theorem hbDeps_nil (src : ExecUnit) (h : Hist) : hbDeps src .nil h = (false, h) := rfl

theorem hbDeps_cons (src : ExecUnit) (n : Nat) (d : ExecUnit) (t : DepList) (h : Hist) :
    hbDeps src (.cons n d t) h =
      (let p := hbAux src d h
       if p.1 then (true, p.2) else hbDeps src t p.2) := rfl

/-- A top-level query between units of the same ptid is decided by the
same-task comparison alone (the base/deps recursion is not consulted). -/
theorem happens_before_same_ptid (src dst : ExecUnit) (hp : src.ptid = dst.ptid) :
    ExecUnit.happens_before src dst = happens_before_in_task src dst := by
  cases dst with
  | mk p c s k b d =>
    rw [ExecUnit.happens_before, hbAux_same src p c s k b d [] (by simp [alLookup])
      (by simpa [ExecUnit.ptid] using hp)]

/- ### C2 -/

/-- C2: for two points with identical `(ptid, seq)` the happens-before
query returns exactly `src.clk ≤ dst.clk`; in particular `hb(p, p)` is
true for every point. -/
theorem C2_hb_in_task_iff_clk (src dst : ExecUnit)
    (hp : src.ptid = dst.ptid) (hs : src.seq = dst.seq) :
    (ExecUnit.happens_before src dst = true ↔ src.clk ≤ dst.clk) ∧
      (∀ u : ExecUnit, ExecUnit.happens_before u u = true) := by
  constructor
  · rw [happens_before_same_ptid src dst hp, happens_before_in_task]
    simp [hs]
  · intro u
    rw [happens_before_same_ptid u u rfl, happens_before_in_task]
    simp

/-- Witness for C2 at a concrete pair of points. -/
theorem C2_hb_in_task_iff_clk_witness :
    (ExecUnit.happens_before (.mk 3 none 1 2 .none .nil) (.mk 3 none 1 5 .none .nil)
        = true ↔ (2 : Nat) ≤ 5) ∧
      (∀ u : ExecUnit, ExecUnit.happens_before u u = true) :=
  C2_hb_in_task_iff_clk (.mk 3 none 1 2 .none .nil) (.mk 3 none 1 5 .none .nil) rfl rfl

/- ### C10 -/

/-- C10: `add_dep` keys dependencies by the peer's ptid (the key
invariant `deps[k].ptid = k` is preserved), and the recorded dependency
for a ptid is replaced only by a unit it happens-before within its own
task, so each slot is monotonically non-decreasing in `(seq, clk)`. -/
theorem C10_add_dep_keyed_monotone (self dep : ExecUnit)
    (hkey : ∀ k u, depLookup self.deps k = some u → ExecUnit.ptid u = k) :
    (∀ k u, depLookup (self.add_dep dep).deps k = some u → ExecUnit.ptid u = k) ∧
      (∀ k u, depLookup self.deps k = some u →
        ∃ v, depLookup (self.add_dep dep).deps k = some v ∧
          happens_before_in_task u v = true) := by
  have hrefl : ∀ u : ExecUnit, happens_before_in_task u u = true := by
    intro u; simp [happens_before_in_task]
  have hins : ∀ k u, depLookup (depInsert self.deps dep.ptid dep) k = some u →
      ExecUnit.ptid u = k := by
    intro k u hu
    by_cases hk : k = dep.ptid
    · subst hk
      rw [depLookup_depInsert_self] at hu
      cases hu
      rfl
    · rw [depLookup_depInsert_ne _ _ _ _ (fun h => hk h.symm)] at hu
      exact hkey k u hu
  rw [ExecUnit.add_dep]
  cases hold : depLookup self.deps dep.ptid with
  | none =>
    refine ⟨by simpa [ExecUnit.deps_setDeps] using hins, ?_⟩
    intro k u hu
    by_cases hk : k = dep.ptid
    · subst hk; rw [hold] at hu; cases hu
    · exact ⟨u, by
        simpa [ExecUnit.deps_setDeps,
          depLookup_depInsert_ne _ _ _ _ (fun h => hk h.symm)] using hu, hrefl u⟩
  | some old =>
    by_cases hh : happens_before_in_task old dep
    · simp only [hh, if_pos]
      refine ⟨by simpa [ExecUnit.deps_setDeps] using hins, ?_⟩
      intro k u hu
      by_cases hk : k = dep.ptid
      · subst hk
        rw [hold] at hu
        cases hu
        exact ⟨dep, by simp [ExecUnit.deps_setDeps, depLookup_depInsert_self], hh⟩
      · exact ⟨u, by
          simpa [ExecUnit.deps_setDeps,
            depLookup_depInsert_ne _ _ _ _ (fun h => hk h.symm)] using hu, hrefl u⟩
    · simp only [hh, if_neg, Bool.false_eq_true, not_false_iff]
      exact ⟨hkey, fun k u hu => ⟨u, hu, hrefl u⟩⟩

/-- Witness for C10 at a concrete unit and dependency. -/
theorem C10_add_dep_keyed_monotone_witness :
    (∀ k u, depLookup ((ExecUnit.create 1).add_dep (.mk 2 none 0 3 .none .nil)).deps k
        = some u → ExecUnit.ptid u = k) ∧
      (∀ k u, depLookup (ExecUnit.create 1).deps k = some u →
        ∃ v, depLookup ((ExecUnit.create 1).add_dep (.mk 2 none 0 3 .none .nil)).deps k
            = some v ∧ happens_before_in_task u v = true) :=
  C10_add_dep_keyed_monotone (ExecUnit.create 1) (.mk 2 none 0 3 .none .nil)
    (by intro k u hu; simp [ExecUnit.create, ExecUnit.deps, depLookup] at hu)

/- ### Context types and record metadata -/

/-- `CtxtType` of dart.py with `from_ptid` decoding bits 24/25/26. -/
inductive CtxtType : Type where
  | TASK | SOFTIRQ | HARDIRQ | NMI
deriving DecidableEq

def CtxtType.from_ptid (ptid : Nat) : CtxtType :=
  if ptid &&& ((1 <<< 8) <<< 16) ≠ 0 then .SOFTIRQ
  else if ptid &&& ((1 <<< 9) <<< 16) ≠ 0 then .HARDIRQ
  else if ptid &&& ((1 <<< 10) <<< 16) ≠ 0 then .NMI
  else .TASK

/-- `LogMeta` of dart.py. -/
structure LogMeta : Type where
  ptid : Nat
  info : Nat
  hval : Nat

def LogMeta.ctxt (m : LogMeta) : CtxtType := CtxtType.from_ptid m.ptid

/-- `SyncInfo` of dart.py (bit 2 = rw, bit 1 = try, bit 0 = succeed). -/
structure SyncInfo : Type where
  info : Nat

def SyncInfo.is_rw (s : SyncInfo) : Bool := s.info &&& (1 <<< 2) ≠ 0
def SyncInfo.is_try (s : SyncInfo) : Bool := s.info &&& (1 <<< 1) ≠ 0
def SyncInfo.is_succ (s : SyncInfo) : Bool := s.info &&& (1 <<< 0) ≠ 0

/-- `DART_LOCK_ID_RCU` of dart.py. -/
def DART_LOCK_ID_RCU : Nat := 1

/- ### Lock maps (`_LockMapImpl` / `LockMap`) -/

/-- `_LockMapImpl` of dart.py: `defaultdict(int)` from lock id to depth. -/
structure LockMapImpl : Type where
  locks : List (Nat × Nat)

/-- `add_lock`: returns the previous depth and increments. -/
def LockMapImpl.add_lock (m : LockMapImpl) (lock : Nat) : Nat × LockMapImpl :=
  let depth := (alLookup m.locks lock).getD 0
  (depth, ⟨alInsert m.locks lock (depth + 1)⟩)

/-- `del_lock`: returns the previous depth; removes the entry when the
depth was at most 1, else decrements. -/
def LockMapImpl.del_lock (m : LockMapImpl) (lock : Nat) : Nat × LockMapImpl :=
  let depth := (alLookup m.locks lock).getD 0
  if depth ≤ 1 then (depth, ⟨alErase m.locks lock⟩)
  else (depth, ⟨alInsert m.locks lock (depth - 1)⟩)

/-- `lockset`: the key set (as a list; only membership matters). -/
def LockMapImpl.lockset (m : LockMapImpl) : List Nat := m.locks.map (·.1)

/-- `LockMap` of dart.py. -/
structure LockMap : Type where
  locks_r : LockMapImpl
  locks_w : LockMapImpl

def LockMap.create : LockMap := ⟨⟨[]⟩, ⟨[]⟩⟩

def LockMap.add_lock_r (m : LockMap) (lock : Nat) : Nat × LockMap :=
  let (d, r) := m.locks_r.add_lock lock
  (d, { m with locks_r := r })

def LockMap.del_lock_r (m : LockMap) (lock : Nat) : Nat × LockMap :=
  let (d, r) := m.locks_r.del_lock lock
  (d, { m with locks_r := r })

def LockMap.add_lock_w (m : LockMap) (lock : Nat) : Nat × LockMap :=
  let (d, w) := m.locks_w.add_lock lock
  (d, { m with locks_w := w })

def LockMap.del_lock_w (m : LockMap) (lock : Nat) : Nat × LockMap :=
  let (d, w) := m.locks_w.del_lock lock
  (d, { m with locks_w := w })

/-- `lockset_r`: union of reader and writer key sets. -/
def LockMap.lockset_r (m : LockMap) : List Nat :=
  m.locks_r.lockset ++ m.locks_w.lockset

/-- `lockset_w`: writer key set only. -/
def LockMap.lockset_w (m : LockMap) : List Nat := m.locks_w.lockset

/- ### Transaction maps (`_TranInfo` / `_TranMapImpl` / `TranMap`) -/

/-- `_TranInfo` of dart.py (`begin` and `retry` unit snapshots). -/
structure TranInfo : Type where
  begin_u : Option ExecUnit
  retry_u : Option ExecUnit

/-- `_TranMapImpl` of dart.py: `defaultdict(_TranInfo)`. -/
structure TranMapImpl : Type where
  trans : List (Nat × TranInfo)

/-- `add_tran`: store the begin point, clear retry, return prior retry. -/
def TranMapImpl.add_tran (m : TranMapImpl) (tran : Nat) (unit : ExecUnit) :
    Option ExecUnit × TranMapImpl :=
  let ti := (alLookup m.trans tran).getD ⟨none, none⟩
  (ti.retry_u, ⟨alInsert m.trans tran ⟨some unit, none⟩⟩)

/-- `del_tran`: store the retry point, return the begin point. -/
def TranMapImpl.del_tran (m : TranMapImpl) (tran : Nat) (unit : ExecUnit) :
    Option ExecUnit × TranMapImpl :=
  let ti := (alLookup m.trans tran).getD ⟨none, none⟩
  (ti.begin_u, ⟨alInsert m.trans tran ⟨ti.begin_u, some unit⟩⟩)

/-- `lockset_candidates`: the key set. -/
def TranMapImpl.lockset_candidates (m : TranMapImpl) : List Nat :=
  m.trans.map (·.1)

/-- `pending`: keys whose retry point is still unset. -/
def TranMapImpl.pending (m : TranMapImpl) : List Nat :=
  (m.trans.filter (fun kv => kv.2.retry_u.isNone)).map (·.1)

/-- `TranMap` of dart.py. -/
structure TranMap : Type where
  trans_r : TranMapImpl
  locks_w : LockMapImpl

def TranMap.create : TranMap := ⟨⟨[]⟩, ⟨[]⟩⟩

def TranMap.add_tran_r (m : TranMap) (tran : Nat) (unit : ExecUnit) :
    Option ExecUnit × TranMap :=
  let (r, t) := m.trans_r.add_tran tran unit
  (r, { m with trans_r := t })

def TranMap.del_tran_r (m : TranMap) (tran : Nat) (unit : ExecUnit) :
    Option ExecUnit × TranMap :=
  let (r, t) := m.trans_r.del_tran tran unit
  (r, { m with trans_r := t })

def TranMap.add_lock_w (m : TranMap) (lock : Nat) : Nat × TranMap :=
  let (d, w) := m.locks_w.add_lock lock
  (d, { m with locks_w := w })

def TranMap.del_lock_w (m : TranMap) (lock : Nat) : Nat × TranMap :=
  let (d, w) := m.locks_w.del_lock lock
  (d, { m with locks_w := w })

def TranMap.transet_r (m : TranMap) : List Nat := m.trans_r.lockset_candidates

def TranMap.transet_w (m : TranMap) : List Nat := m.locks_w.lockset

/- ### Memory accesses and cells -/

/-- `MemAccess` of dart.py. -/
structure MemAccess : Type where
  hval : Nat
  unit : ExecUnit
  sync_locks : List Nat
  sync_trans : List Nat

/-- `MemCell` of dart.py: per-ptid reader and writer access lists. -/
structure MemCell : Type where
  readers : List (Nat × List MemAccess)
  writers : List (Nat × List MemAccess)

/- ### Slots -/

/-- `AsyncSlot` of dart.py. -/
structure AsyncSlot : Type where
  func : Nat
  unit : ExecUnit
  others : List ExecUnit
  serving : Nat
  host : Option ExecUnit

/-- `EventSlot` of dart.py (`servers : Dict[ptid, (func, unit)]`). -/
structure EventSlot : Type where
  func : Nat
  unit : ExecUnit
  servers : List (Nat × Nat × ExecUnit)
  host : Option ExecUnit

/-- `QueueSlot` of dart.py (`units : Dict[ptid, unit]`). -/
structure QueueSlot : Type where
  units : List (Nat × ExecUnit)

/-- `OrderSlot` of dart.py. -/
structure OrderSlot : Type where
  objv : Nat
  unit : ExecUnit

/- ### Task state -/

/-- `TaskState` of dart.py (the call stack holds function hashes). -/
structure TaskState : Type where
  unit : ExecUnit
  nseq : Nat
  last_unit : Option ExecUnit
  stack : List Nat
  stack_mem : List (Nat × Nat)
  sync_locks : LockMap
  sync_trans : TranMap
  last_blkid : Nat

/-- `TaskState.create(ptid)` of dart.py. -/
def TaskState.create (ptid : Nat) : TaskState :=
  { unit := ExecUnit.create ptid
    nseq := 0
    last_unit := none
    stack := []
    stack_mem := []
    sync_locks := LockMap.create
    sync_trans := TranMap.create
    last_blkid := 0 }

/- ### Transcript lines

The Python `_record_*` helpers append formatted strings; each line kind
is modelled by a constructor carrying the numeric payload (the textual
formatting is not modelled). -/

inductive RLine : Type where
  | ctxtInit (ptid seq hval : Nat) (kind : String)
  | ctxtFini (ptid seq hval : Nat) (kind : String)
  | warnLine (ptid seq hval : Nat) (msg : String)
  | asyncRegLine (ptid seq hval func : Nat) (kind : String)
  | asyncCancelLine (ptid seq hval func : Nat) (kind : String)
  | asyncAttachLine (ptid seq hval func : Nat) (kind : String)
  | eventArriveLine (ptid seq hval : Nat) (kind : String)
  | eventPassLine (ptid seq hval : Nat) (kind : String)
  | queuePre (ptid seq hval : Nat) (kind : String)
  | queueSuf (ptid seq hval : Nat) (kind : String)
  | orderPre (ptid seq addr : Nat) (kind : String)
  | orderSuf (ptid seq addr : Nat) (kind : String)
  | memAddLine (ptid seq addr size : Nat) (kind : String)
  | memDelLine (ptid seq addr size : Nat) (kind : String)
  | memReaderLine (ptid seq addr size hval : Nat)
  | memWriterLine (ptid seq addr size hval : Nat)
  | lockAcqLine (ptid seq : Nat) (rw : Char) (lock : Nat) (kind : String)
  | lockRelLine (ptid seq : Nat) (rw : Char) (lock : Nat) (kind : String)
  | raceLine (p1 s1 c1 p2 s2 c2 h1 h2 addr : Nat)
deriving DecidableEq

/- ### Analyzer state (`ExecAnalyzer` runtime fields) -/

structure AnState : Type where
  main_ptid : Int
  tasks : List (Nat × TaskState)
  mem_sizes_heap : List (Nat × Nat)
  mem_heaps : List (Nat × Nat)
  mem_sizes_pcpu : List (Nat × Nat)
  mem_pcpus : List (Nat × Nat)
  async_slots : List (Nat × AsyncSlot)
  event_slots : List (Nat × EventSlot)
  queue_slots : List (Nat × QueueSlot)
  order_slots : List (Nat × OrderSlot)
  cells : List (Nat × MemCell)
  races : List ((Nat × Nat) × Nat)
  console : List RLine

/-- `ExecAnalyzer.__init__`: empty state with task 0 pre-created. -/
def initAnState : AnState :=
  { main_ptid := 0
    tasks := [(0, TaskState.create 0)]
    mem_sizes_heap := []
    mem_heaps := []
    mem_sizes_pcpu := []
    mem_pcpus := []
    async_slots := []
    event_slots := []
    queue_slots := []
    order_slots := []
    cells := []
    races := []
    console := [] }

/-- `ExecAnalyzer._record_race`: appends the race lines and bumps the
`(src_hval, dst_hval)` aggregate count. -/
def record_race (A : AnState) (a1 a2 : MemAccess) (addr : Nat) : AnState :=
  let A1 := { A with console := A.console ++
    [RLine.raceLine a1.unit.ptid a1.unit.seq a1.unit.clk
      a2.unit.ptid a2.unit.seq a2.unit.clk a1.hval a2.hval addr] }
  match alLookup A1.races (a1.hval, a2.hval) with
  | some n => { A1 with races := alInsert A1.races (a1.hval, a2.hval) (n + 1) }
  | none => { A1 with races := alInsert A1.races (a1.hval, a2.hval) 1 }

/- ### Option helper for `UnitOpt` -/

def UnitOpt.isSome : UnitOpt → Bool
  | .none => false
  | .some _ => true

/- ### Context enter/exit (generics of dart.py) -/

/-- `ExecAnalyzer._log_ctxt_enter_get_task`: fetch or create the task,
stealing it into the slot's `host` when another context is live. -/
def log_ctxt_enter_get_task (A : AnState) (meta : LogMeta)
    (slotIn : Option AsyncSlot) :
    Except String (TaskState × Option AsyncSlot) := do
  let (task, slotOut) ←
    match alLookup A.tasks meta.ptid with
    | none => pure (TaskState.create meta.ptid, slotIn)
    | some task =>
      match slotIn with
      | none =>
        if task.unit.ctxt ≠ none then
          throw "context is not cleared on entry"
        else pure (task, (none : Option AsyncSlot))
      | some slot =>
        if task.unit.ctxt ≠ none then
          let host := task.unit.clone
          let u := (ExecUnit.create meta.ptid).add_dep host
          pure ({ task with unit := u }, some { slot with host := some host })
        else
          pure (task, some { slot with host := none })
  if task.unit.clk ≠ 0 then throw "unit clock is not zero on entry"
  let task :=
    match task.last_unit with
    | some lu => { task with unit := task.unit.add_dep lu }
    | none => task
  let u := ((task.unit.setClk 0).setSeq task.nseq).setCtxt (some meta.hval)
  pure ({ task with unit := u, nseq := task.nseq + 1 }, slotOut)

/-- `ExecAnalyzer._log_ctxt_enter_put_task`: record the enter line. -/
def log_ctxt_enter_put_task (A : AnState) (meta : LogMeta) (task : TaskState)
    (kind : String) : AnState :=
  { A with console := A.console ++
      [RLine.ctxtInit meta.ptid task.unit.seq meta.hval kind] }

/-- `ExecAnalyzer._log_ctxt_exit_get_task`. -/
def log_ctxt_exit_get_task (A : AnState) (meta : LogMeta) :
    Except String TaskState := do
  match alLookup A.tasks meta.ptid with
  | none => throw "context exiting without entering"
  | some task =>
    if task.unit.ctxt ≠ some meta.hval then
      throw "context mismatch at exit"
    else
      pure { task with last_unit := some task.unit.clone }

/-- `ExecAnalyzer._log_ctxt_exit_put_task`: record, reset the unit
(clock, context, deps) and restore a stolen host from the slot. -/
def log_ctxt_exit_put_task (A : AnState) (meta : LogMeta) (task : TaskState)
    (slotIn : Option AsyncSlot) (kind : String) :
    AnState × TaskState × Option AsyncSlot :=
  let A2 := { A with console := A.console ++
      [RLine.ctxtFini meta.ptid task.unit.seq meta.hval kind] }
  let u := ((task.unit.setClk 0).setCtxt none).setDeps .nil
  match slotIn with
  | some slot =>
    match slot.host with
    | some host => (A2, { task with unit := host.clone }, some { slot with host := none })
    | none => (A2, { task with unit := u }, some slot)
  | none => (A2, { task with unit := u }, none)

/-- `ExecAnalyzer._log_ctxt_direct_enter`. -/
def log_ctxt_direct_enter (A : AnState) (meta : LogMeta) (kind : String) :
    Except String AnState := do
  let (task, _) ← log_ctxt_enter_get_task A meta none
  if task.unit.base.isSome then throw "direct context entered with parent"
  let A2 := { A with tasks := alInsert A.tasks meta.ptid task }
  pure (log_ctxt_enter_put_task A2 meta task kind)

/-- `ExecAnalyzer._log_ctxt_direct_exit`. -/
def log_ctxt_direct_exit (A : AnState) (meta : LogMeta) (kind : String) :
    Except String AnState := do
  let task ← log_ctxt_exit_get_task A meta
  if task.unit.base.isSome then throw "direct context exited with parent"
  let (A2, task2, _) := log_ctxt_exit_put_task A meta task none kind
  pure { A2 with tasks := alInsert A2.tasks meta.ptid task2 }

def log_ctxt_syscall_enter (A : AnState) (meta : LogMeta) : Except String AnState :=
  log_ctxt_direct_enter A meta "SYSCALL"

def log_ctxt_syscall_exit (A : AnState) (meta : LogMeta) : Except String AnState :=
  log_ctxt_direct_exit A meta "SYSCALL"

/-- `ExecAnalyzer._log_ctxt_indirect_enter`: consume the fork slot. -/
def log_ctxt_indirect_enter (A : AnState) (meta : LogMeta) (func : Nat)
    (kind : String) : Except String AnState := do
  match alLookup A.async_slots meta.hval with
  | none => throw "indirect context entered without registration"
  | some slot =>
    if slot.func ≠ func then throw "indirect context entered with wrong callback"
    let (task, slotOut) ← log_ctxt_enter_get_task A meta (some slot)
    match slotOut with
    | none => throw "impossible: slot lost in enter"
    | some slot =>
      if task.unit.base.isSome then throw "indirect context entered with parent"
      let u := task.unit.setBase (.some slot.unit.clone)
      let u := slot.others.foldl (fun acc item => acc.add_dep item) u
      let slot := { slot with func := 0, serving := func, others := [] }
      let task := { task with unit := u }
      let A2 := { A with tasks := alInsert A.tasks meta.ptid task,
                         async_slots := alInsert A.async_slots meta.hval slot }
      pure (log_ctxt_enter_put_task A2 meta task kind)

/-- `ExecAnalyzer._log_ctxt_indirect_exit`. -/
def log_ctxt_indirect_exit (A : AnState) (meta : LogMeta) (func : Nat)
    (kind : String) : Except String AnState := do
  let task ← log_ctxt_exit_get_task A meta
  match alLookup A.async_slots meta.hval with
  | none => throw "indirect context exited without registration"
  | some slot =>
    if slot.serving ≠ func then throw "indirect context exited with wrong callback"
    match task.unit.base with
    | .none => throw "indirect context exited without parent"
    | .some _ =>
      let task := { task with unit := task.unit.setBase .none }
      let slot := { slot with serving := 0 }
      let (A2, task2, slotOut) := log_ctxt_exit_put_task A meta task (some slot) kind
      let A3 := { A2 with tasks := alInsert A2.tasks meta.ptid task2 }
      match slotOut with
      | some s => pure { A3 with async_slots := alInsert A3.async_slots meta.hval s }
      | none => pure A3

/- ### SYNC (rcu lock) -/

/-- `ExecAnalyzer.log_sync_rcu_lock`. -/
def log_sync_rcu_lock (A : AnState) (meta : LogMeta) (task : TaskState)
    (lock : Nat) : Except String (AnState × TaskState) := do
  let info : SyncInfo := ⟨meta.info⟩
  if info.is_try && !info.is_succ then pure (A, task)
  else if info.is_rw then do
    let (depth, lm) := task.sync_locks.add_lock_w lock
    if depth ≠ 0 then throw "rcu_lock acquired with wrong depth"
    let task := { task with sync_locks := lm }
    pure ({ A with console := A.console ++
        [RLine.lockAcqLine meta.ptid task.unit.seq 'E' lock "RCU"] }, task)
  else do
    let (_, lm) := task.sync_locks.add_lock_r lock
    let task := { task with sync_locks := lm }
    pure ({ A with console := A.console ++
        [RLine.lockAcqLine meta.ptid task.unit.seq 'S' lock "RCU"] }, task)

/-- `ExecAnalyzer.log_sync_rcu_unlock`. -/
def log_sync_rcu_unlock (A : AnState) (meta : LogMeta) (task : TaskState)
    (lock : Nat) : Except String (AnState × TaskState) := do
  let info : SyncInfo := ⟨meta.info⟩
  if info.is_try && !info.is_succ then pure (A, task)
  else do
    let (depth, task, rw) ←
      if info.is_rw then do
        let (depth, lm) := task.sync_locks.del_lock_w lock
        pure (depth, { task with sync_locks := lm }, 'E')
      else do
        let (depth, lm) := task.sync_locks.del_lock_r lock
        pure (depth, { task with sync_locks := lm }, 'S')
    if depth = 0 then throw "rcu_lock released with wrong depth"
    pure ({ A with console := A.console ++
        [RLine.lockRelLine meta.ptid task.unit.seq rw lock "RCU"] }, task)

/- ### CTXT (rcu): context entry implies the lock with id 1 -/

/-- `ExecAnalyzer.log_ctxt_rcu_enter`: indirect enter, then a lock
acquire with `info = (1 << 2) | (1 << 0)` on lock id `DART_LOCK_ID_RCU`. -/
def log_ctxt_rcu_enter (A : AnState) (meta : LogMeta) (func : Nat) :
    Except String AnState := do
  let A ← log_ctxt_indirect_enter A meta func "RCU"
  match alLookup A.tasks meta.ptid with
  | none => throw "impossible: task missing after rcu enter"
  | some lock_task =>
    let lock_meta : LogMeta := ⟨meta.ptid, (1 <<< 2) ||| (1 <<< 0), meta.hval⟩
    let (A2, task2) ← log_sync_rcu_lock A lock_meta lock_task DART_LOCK_ID_RCU
    pure { A2 with tasks := alInsert A2.tasks meta.ptid task2 }

/-- `ExecAnalyzer.log_ctxt_rcu_exit`: the lock release first, then the
indirect context exit. -/
def log_ctxt_rcu_exit (A : AnState) (meta : LogMeta) (func : Nat) :
    Except String AnState := do
  let A ←
    match alLookup A.tasks meta.ptid with
    | some lock_task => do
      let lock_meta : LogMeta := ⟨meta.ptid, (1 <<< 2) ||| (1 <<< 0), meta.hval⟩
      let (A2, task2) ← log_sync_rcu_unlock A lock_meta lock_task DART_LOCK_ID_RCU
      pure { A2 with tasks := alInsert A2.tasks meta.ptid task2 }
    | none => pure A
  log_ctxt_indirect_exit A meta func "RCU"

def log_ctxt_work_enter (A : AnState) (meta : LogMeta) (func : Nat) :
    Except String AnState :=
  log_ctxt_indirect_enter A meta func "WORK"

def log_ctxt_work_exit (A : AnState) (meta : LogMeta) (func : Nat) :
    Except String AnState :=
  log_ctxt_indirect_exit A meta func "WORK"

/- ### ASYNC register -/

/-- `ExecAnalyzer._log_async_register`. -/
def log_async_register (A : AnState) (meta : LogMeta) (task : TaskState)
    (func : Nat) (kind : String) : Except String AnState := do
  match alLookup A.async_slots meta.hval with
  | some slot =>
    if slot.func ≠ 0 then throw "async registered twice"
    let slot := { slot with func := func, unit := task.unit.clone }
    pure { A with async_slots := alInsert A.async_slots meta.hval slot,
                  console := A.console ++
                    [RLine.asyncRegLine meta.ptid task.unit.seq meta.hval func kind] }
  | none =>
    pure { A with async_slots := alInsert A.async_slots meta.hval
                    ⟨func, task.unit.clone, [], 0, none⟩,
                  console := A.console ++
                    [RLine.asyncRegLine meta.ptid task.unit.seq meta.hval func kind] }

def log_async_work_register (A : AnState) (meta : LogMeta) (task : TaskState)
    (func : Nat) : Except String AnState :=
  log_async_register A meta task func "WORK"

/- ### EVENT arrive / pass -/

/-- `ExecAnalyzer._log_event_arrive`. -/
def log_event_arrive (A : AnState) (meta : LogMeta) (task : TaskState)
    (func : Nat) (kind : String) : Except String AnState := do
  match alLookup A.event_slots meta.hval with
  | some slot =>
    if slot.func ≠ 0 then throw "event arrived twice"
    if slot.servers.any (fun kv => kv.2.1 ≠ 0) then
      throw "event arrived while notifier is still executing"
    let slot := { slot with func := func, unit := task.unit.clone, servers := [] }
    pure { A with event_slots := alInsert A.event_slots meta.hval slot,
                  console := A.console ++
                    [RLine.eventArriveLine meta.ptid task.unit.seq meta.hval kind] }
  | none =>
    pure { A with event_slots := alInsert A.event_slots meta.hval
                    ⟨func, task.unit.clone, [], none⟩,
                  console := A.console ++
                    [RLine.eventArriveLine meta.ptid task.unit.seq meta.hval kind] }

/-- `ExecAnalyzer._log_event_pass`: the slot is kept, only `func` is
reset to 0. -/
def log_event_pass (A : AnState) (meta : LogMeta) (task : TaskState)
    (func : Nat) (kind : String) : Except String AnState := do
  match alLookup A.event_slots meta.hval with
  | none => throw "event passed without arrival"
  | some slot =>
    let slot := { slot with func := 0 }
    pure { A with event_slots := alInsert A.event_slots meta.hval slot,
                  console := A.console ++
                    [RLine.eventPassLine meta.ptid task.unit.seq meta.hval kind] }

def log_event_wait_pass (A : AnState) (meta : LogMeta) (task : TaskState)
    (func : Nat) : Except String AnState :=
  log_event_pass A meta task func "WAIT"

/- ### QUEUE notify / arrive -/

/-- `ExecAnalyzer.log_event_queue_arrive`: pull dependencies from the
queue slot (the slot itself is left in the table). -/
def log_event_queue_arrive (A : AnState) (meta : LogMeta) (task : TaskState) :
    AnState :=
  let task2 :=
    match alLookup A.queue_slots meta.hval with
    | some slot =>
      { task with unit := slot.units.foldl (fun u kv => u.add_dep kv.2) task.unit }
    | none => task
  { A with tasks := alInsert A.tasks meta.ptid task2,
           console := A.console ++
             [RLine.queueSuf meta.ptid task2.unit.seq meta.hval "QUE"] }

/-- `ExecAnalyzer.log_event_queue_notify`. -/
def log_event_queue_notify (A : AnState) (meta : LogMeta) (task : TaskState) :
    AnState :=
  let slot :=
    match alLookup A.queue_slots meta.hval with
    | some slot => slot
    | none => QueueSlot.mk []
  let slot := QueueSlot.mk (alInsert slot.units meta.ptid task.unit.clone)
  { A with queue_slots := alInsert A.queue_slots meta.hval slot,
           console := A.console ++
             [RLine.queuePre meta.ptid task.unit.seq meta.hval "QUE"] }

/- ### SYNC (sequence lock reader unlock) -/

/-- `ExecAnalyzer.log_sync_seq_unlock`. -/
def log_sync_seq_unlock (A : AnState) (meta : LogMeta) (task : TaskState)
    (lock : Nat) : Except String (AnState × TaskState) := do
  let info : SyncInfo := ⟨meta.info⟩
  if info.is_try && !info.is_succ then pure (A, task)
  else if info.is_rw then do
    let (depth, tm) := task.sync_trans.del_lock_w lock
    if depth ≠ 1 then throw "seq_lock [E] released with wrong depth"
    let task := { task with sync_trans := tm }
    pure ({ A with console := A.console ++
        [RLine.lockRelLine meta.ptid task.unit.seq 'E' lock "SEQ"] }, task)
  else do
    let (prior, tm) := task.sync_trans.del_tran_r lock task.unit.clone
    match prior with
    | none => throw "seq_lock [S] released with wrong depth"
    | some pu =>
      if pu.seq ≠ task.unit.seq then throw "seq_lock [S] released with wrong ctxt"
      let task := { task with sync_trans := tm }
      pure ({ A with console := A.console ++
          [RLine.lockRelLine meta.ptid task.unit.seq 'S' lock "SEQ"] }, task)

/- ### MEM (generic add/del over a byte repository) -/

/-- The `for i in range(size)` loop of `ExecAnalyzer._log_mem_add`:
assert each byte unmapped, then map it to the alloc hash. -/
def mem_repo_add (repo : List (Nat × Nat)) (addr size hval : Nat) :
    Except String (List (Nat × Nat)) :=
  match size with
  | 0 => .ok repo
  | n + 1 =>
    if (alLookup repo addr).isSome then .error "memory add without del"
    else mem_repo_add (alInsert repo addr hval) (addr + 1) n hval

/-- The `for i in range(size)` loop of `ExecAnalyzer._log_mem_del`:
assert each byte mapped, then remove it. -/
def mem_repo_del (repo : List (Nat × Nat)) (addr size : Nat) :
    Except String (List (Nat × Nat)) :=
  match size with
  | 0 => .ok repo
  | n + 1 =>
    if (alLookup repo addr).isSome then
      mem_repo_del (alErase repo addr) (addr + 1) n
    else .error "memory del without add"

/-- `ExecAnalyzer.log_mem_heap_alloc` = `_log_mem_add` on `mem_heaps`
followed by `_log_mem_add_size` on `mem_sizes_heap`. -/
def log_mem_heap_alloc (A : AnState) (meta : LogMeta) (task : TaskState)
    (addr size : Nat) : Except String AnState := do
  let heaps ← mem_repo_add A.mem_heaps addr size meta.hval
  let A := { A with mem_heaps := heaps,
                    console := A.console ++
                      [RLine.memAddLine meta.ptid task.unit.seq addr size "H"] }
  if (alLookup A.mem_sizes_heap addr).isSome then
    throw "memory size add without del"
  pure { A with mem_sizes_heap := alInsert A.mem_sizes_heap addr size }

/-- `ExecAnalyzer.log_mem_heap_free` = `_log_mem_del_size` on
`mem_sizes_heap` followed by `_log_mem_del` on `mem_heaps`. -/
def log_mem_heap_free (A : AnState) (meta : LogMeta) (task : TaskState)
    (addr : Nat) : Except String AnState := do
  match alLookup A.mem_sizes_heap addr with
  | none => throw "memory size del without add"
  | some size =>
    let A := { A with mem_sizes_heap := alErase A.mem_sizes_heap addr }
    let heaps ← mem_repo_del A.mem_heaps addr size
    pure { A with mem_heaps := heaps,
                  console := A.console ++
                    [RLine.memDelLine meta.ptid task.unit.seq addr size "H"] }

/- ### Race engine: deny list and per-peer race checks -/

/-- `RACE_BLACKLIST` of dart.py (source-location deny list). -/
def RACE_BLACKLIST : List String :=
  [ "<placeholder>",
    "kernel/linux/fs/btrfs/block-group.c:404:2",
    "kernel/linux/fs/btrfs/block-rsv.c:195:52" ]

/-- `ExecAnalyzer.race_blacklist`: true when any deny-list location
occurs among either instruction's source locations (`compdb` maps an
instruction hash to its location strings). -/
def race_blacklist (compdb : Nat → List String) (bl : List String)
    (a1 a2 : MemAccess) : Bool :=
  bl.any (fun i => (compdb a1.hval).contains i || (compdb a2.hval).contains i)

/-- `len(a.intersection(b)) != 0` on key sets. -/
def locks_intersect (l1 l2 : List Nat) : Bool :=
  l1.any (fun x => l2.contains x)

/-- Body of the writer loop in `_log_mem_cell_reader` for one peer ptid:
returns the candidate access when a race is to be recorded. -/
def race_check_read (compdb : Nat → List String) (bl : List String)
    (meta : LogMeta) (access : MemAccess) (p : Nat) (vals : List MemAccess) :
    Option MemAccess :=
  if p = meta.ptid then none
  else
    match vals.getLast? with
    | none => none
    | some another =>
      if meta.ctxt ≠ CtxtType.TASK ∧ CtxtType.from_ptid another.unit.ptid ≠ CtxtType.TASK then
        none
      else if another.unit.happens_before access.unit then none
      else if locks_intersect another.sync_locks access.sync_locks then none
      else if another.sync_trans.any (fun tk => access.sync_trans.contains tk) then none
      else if race_blacklist compdb bl another access then none
      else some another

/-- Body of the reader loop in `_log_mem_cell_writer` for one peer. -/
def race_check_write_vs_reader (compdb : Nat → List String) (bl : List String)
    (meta : LogMeta) (access : MemAccess) (p : Nat) (vals : List MemAccess) :
    Option MemAccess :=
  if p = meta.ptid then none
  else
    match vals.getLast? with
    | none => none
    | some another =>
      if meta.ctxt ≠ CtxtType.TASK ∧ CtxtType.from_ptid another.unit.ptid ≠ CtxtType.TASK then
        none
      else if another.unit.happens_before access.unit then none
      else if locks_intersect another.sync_locks access.sync_locks then none
      else if access.sync_trans.any (fun tk => another.sync_trans.contains tk) then none
      else if race_blacklist compdb bl another access then none
      else some another

/-- Body of the writer loop in `_log_mem_cell_writer` for one peer:
transactions and the deny list do not apply to writer/writer pairs. -/
def race_check_write_vs_writer (meta : LogMeta) (access : MemAccess)
    (p : Nat) (vals : List MemAccess) : Option MemAccess :=
  if p = meta.ptid then none
  else
    match vals.getLast? with
    | none => none
    | some another =>
      if meta.ctxt ≠ CtxtType.TASK ∧ CtxtType.from_ptid another.unit.ptid ≠ CtxtType.TASK then
        none
      else if another.unit.happens_before access.unit then none
      else if locks_intersect another.sync_locks access.sync_locks then none
      else some another

/-- Apply a per-peer race check across a cell side, collecting the
recorded candidates in iteration order. -/
def races_from_peers (f : Nat → List MemAccess → Option MemAccess)
    (peers : List (Nat × List MemAccess)) : List MemAccess :=
  peers.filterMap (fun kv => f kv.1 kv.2)

/-- `ExecAnalyzer._log_mem_cell_reader`. -/
def log_mem_cell_reader (compdb : Nat → List String) (bl : List String)
    (A : AnState) (meta : LogMeta) (task : TaskState) (addr : Nat) : AnState :=
  if (alLookup task.stack_mem addr).isSome then A
  else if (alLookup A.mem_pcpus addr).isSome then A
  else
    let cell := (alLookup A.cells addr).getD ⟨[], []⟩
    let cell :=
      if (alLookup cell.readers meta.ptid).isSome then cell
      else { cell with readers := alInsert cell.readers meta.ptid [] }
    let access : MemAccess :=
      ⟨meta.hval, task.unit.clone, task.sync_locks.lockset_r, task.sync_trans.transet_r⟩
    let hits := races_from_peers (race_check_read compdb bl meta access) cell.writers
    let A := hits.foldl (fun acc another => record_race acc another access addr) A
    let rlist := ((alLookup cell.readers meta.ptid).getD []) ++ [access]
    let cell := { cell with readers := alInsert cell.readers meta.ptid rlist }
    { A with cells := alInsert A.cells addr cell }

/-- `ExecAnalyzer._log_mem_cell_writer`. -/
def log_mem_cell_writer (compdb : Nat → List String) (bl : List String)
    (A : AnState) (meta : LogMeta) (task : TaskState) (addr : Nat) : AnState :=
  if (alLookup task.stack_mem addr).isSome then A
  else if (alLookup A.mem_pcpus addr).isSome then A
  else
    let cell := (alLookup A.cells addr).getD ⟨[], []⟩
    let cell :=
      if (alLookup cell.writers meta.ptid).isSome then cell
      else { cell with writers := alInsert cell.writers meta.ptid [] }
    let access : MemAccess :=
      ⟨meta.hval, task.unit.clone, task.sync_locks.lockset_w, task.sync_trans.transet_w⟩
    let hits1 := races_from_peers (race_check_write_vs_reader compdb bl meta access) cell.readers
    let A := hits1.foldl (fun acc another => record_race acc another access addr) A
    let hits2 := races_from_peers (race_check_write_vs_writer meta access) cell.writers
    let A := hits2.foldl (fun acc another => record_race acc another access addr) A
    let wlist := ((alLookup cell.writers meta.ptid).getD []) ++ [access]
    let cell := { cell with writers := alInsert cell.writers meta.ptid wlist }
    { A with cells := alInsert A.cells addr cell }

/- ### ORDER (publish/subscribe) -/

/-- `ExecAnalyzer.log_order_ps_publish`: the slot bookkeeping is
commented out in the source; the only statement is the record. -/
def log_order_ps_publish (A : AnState) (meta : LogMeta) (task : TaskState)
    (addr : Nat) : AnState :=
  { A with console := A.console ++
      [RLine.orderPre meta.ptid task.unit.seq addr "RCU"] }

/-- `ExecAnalyzer.log_order_ps_subscribe`: likewise record-only. -/
def log_order_ps_subscribe (A : AnState) (meta : LogMeta) (task : TaskState)
    (addr : Nat) : AnState :=
  { A with console := A.console ++
      [RLine.orderSuf meta.ptid task.unit.seq addr "RCU"] }

/- ### SYS launch/finish and the event dispatcher -/

def log_sys_launch (A : AnState) (meta : LogMeta) : Except String AnState := do
  if meta.ptid = 0 then throw "launched with ptid 0"
  if A.main_ptid ≠ 0 then throw "launched multiple times"
  pure { A with main_ptid := (meta.ptid : Int) }

def log_sys_finish (A : AnState) (meta : LogMeta) : Except String AnState := do
  if meta.ptid = 0 then throw "terminated with ptid 0"
  if A.main_ptid ≠ (meta.ptid : Int) then throw "terminated with a different ptid"
  pure { A with main_ptid := -1 }

/-- The ledger events needed for the runs in this development (each
constructor corresponds to one `LogType` record of dart.py). -/
inductive LEvent : Type where
  | sysLaunch (ptid : Nat)
  | sysFinish (ptid : Nat)
  | ctxtSyscallEnter (ptid hval : Nat)
  | ctxtSyscallExit (ptid hval : Nat)
  | ctxtWorkEnter (ptid hval func : Nat)
  | ctxtWorkExit (ptid hval func : Nat)
  | asyncWorkRegister (ptid hval func : Nat)
  | eventQueueNotify (ptid hval : Nat)
  | eventQueueArrive (ptid hval : Nat)
  | eventWaitArrive (ptid hval func : Nat)
  | eventWaitPass (ptid hval func : Nat)

/-- The `task.unit.clk += 1` step of `iterate_log` applied before every
non-scheduling record, together with the `ptid in tasks` assert. -/
def bump_clk (A : AnState) (ptid : Nat) : Except String (AnState × TaskState) := do
  match alLookup A.tasks ptid with
  | none => throw "log entry does not contain a task"
  | some task =>
    let task := { task with unit := task.unit.setClk (task.unit.clk + 1) }
    pure ({ A with tasks := alInsert A.tasks ptid task }, task)

/-- One iteration of `ExecAnalyzer.iterate_log` for the event kinds
modelled here. -/
def stepEvent (A : AnState) (e : LEvent) : Except String AnState :=
  match e with
  | .sysLaunch p => log_sys_launch A ⟨p, 0, 0⟩
  | .sysFinish p => log_sys_finish A ⟨p, 0, 0⟩
  | .ctxtSyscallEnter p h => log_ctxt_syscall_enter A ⟨p, 0, h⟩
  | .ctxtSyscallExit p h => log_ctxt_syscall_exit A ⟨p, 0, h⟩
  | .ctxtWorkEnter p h f => log_ctxt_work_enter A ⟨p, 0, h⟩ f
  | .ctxtWorkExit p h f => log_ctxt_work_exit A ⟨p, 0, h⟩ f
  | .asyncWorkRegister p h f => do
    let (A, task) ← bump_clk A p
    log_async_work_register A ⟨p, 0, h⟩ task f
  | .eventQueueNotify p h => do
    let (A, task) ← bump_clk A p
    pure (log_event_queue_notify A ⟨p, 0, h⟩ task)
  | .eventQueueArrive p h => do
    let (A, task) ← bump_clk A p
    pure (log_event_queue_arrive A ⟨p, 0, h⟩ task)
  | .eventWaitArrive p h f => do
    let (A, task) ← bump_clk A p
    log_event_arrive A ⟨p, 0, h⟩ task f "WAIT"
  | .eventWaitPass p h f => do
    let (A, task) ← bump_clk A p
    log_event_wait_pass A ⟨p, 0, h⟩ task f

def runEvents (A : AnState) : List LEvent → Except String AnState
  | [] => .ok A
  | e :: t => do runEvents (← stepEvent A e) t

theorem happens_before_in_task_iff (u v : ExecUnit) :
    happens_before_in_task u v = true ↔
      (u.seq < v.seq ∨ (u.seq = v.seq ∧ u.clk ≤ v.clk)) := by
  rw [happens_before_in_task]
  split_ifs with hx1 hx2 <;> simp_all

theorem happens_before_in_task_trans (a b c : ExecUnit)
    (h1 : happens_before_in_task a b = true)
    (h2 : happens_before_in_task b c = true) :
    happens_before_in_task a c = true := by
  rw [happens_before_in_task_iff] at h1 h2 ⊢
  omega

/-- Synchronisation between the memo dicts of two happens-before queries
with sources `b` (left) and `a` (right): equal domains, and every `true`
entry of the left dict is `true` in the right one. -/
def HistSync (hl hr : Hist) : Prop :=
  (∀ κ, (alLookup hl κ).isSome = (alLookup hr κ).isSome) ∧
  (∀ κ, alLookup hl κ = some true → alLookup hr κ = some true)

theorem HistSync.nil : HistSync [] [] :=
  ⟨fun κ => rfl, fun κ hx => by simp [alLookup] at hx⟩

theorem HistSync.push {hl hr : Hist} {κ : Nat × Nat × Nat} {rl rr : Bool}
    (hs : HistSync hl hr) (himp : rl = true → rr = true) :
    HistSync ((κ, rl) :: hl) ((κ, rr) :: hr) := by
  constructor
  · intro κ2
    rw [alLookup, alLookup]
    by_cases hκ : κ = κ2
    · simp [hκ]
    · simp only [if_neg hκ]
      exact hs.1 κ2
  · intro κ2 hx
    rw [alLookup] at hx ⊢
    by_cases hκ : κ = κ2
    · simp only [if_pos hκ] at hx ⊢
      cases hx
      simp [himp rfl]
    · simp only [if_neg hκ] at hx ⊢
      exact hs.2 κ2 hx

theorem HistSync.lookup_none {hl hr : Hist} (hs : HistSync hl hr)
    (κ : Nat × Nat × Nat) (hn : alLookup hl κ = none) :
    alLookup hr κ = none := by
  have := hs.1 κ
  rw [hn] at this
  cases hx : alLookup hr κ with
  | none => rfl
  | some r => rw [hx] at this; simp at this

/-- Monotonicity of the memoized happens-before in the source point: if
`a` happens-before `b` inside the same task, every query result from
source `b` carries over to source `a` (threading synchronised memo
dicts). -/
theorem hbAux_sync_mono (b a : ExecUnit) (hab : happens_before_in_task a b = true)
    (hpt : a.ptid = b.ptid) :
    ∀ (dst : ExecUnit) (h : Hist), ∀ ha, HistSync h ha →
      (((hbAux b dst h).1 = true → (hbAux a dst ha).1 = true) ∧
        ((hbAux a dst ha).1 = true ∨ HistSync (hbAux b dst h).2 (hbAux a dst ha).2)) := by
  refine @hbAux.induct b
    (fun dst h => ∀ ha, HistSync h ha →
      (((hbAux b dst h).1 = true → (hbAux a dst ha).1 = true) ∧
        (((hbAux a dst ha).1 = true) ∨ HistSync (hbAux b dst h).2 (hbAux a dst ha).2)))
    (fun l h => ∀ ha, HistSync h ha →
      (((hbDeps b l h).1 = true → (hbDeps a l ha).1 = true) ∧
        (((hbDeps a l ha).1 = true) ∨ HistSync (hbDeps b l h).2 (hbDeps a l ha).2)))
    ?_ ?_ ?_ ?_ ?_ ?_ ?_ ?_
  -- case 1: memo hit on the left
  · intro h p ctxt seq clk base deps r hl ha hs
    have hrght : (alLookup ha (p, seq, clk)).isSome = true := by
      rw [← hs.1 (p, seq, clk), hl]; rfl
    cases hr : alLookup ha (p, seq, clk) with
    | none => rw [hr] at hrght; simp at hrght
    | some rr =>
      rw [hbAux_hit b p ctxt seq clk base deps h r hl,
        hbAux_hit a p ctxt seq clk base deps ha rr hr]
      refine ⟨fun hb1 => ?_, Or.inr hs⟩
      have h2 := hs.2 (p, seq, clk) (by rw [hl]; exact congrArg some hb1)
      rw [hr] at h2
      injection h2
  -- case 2: same-ptid base case (dst ptid equals the left source ptid)
  · intro h ctxt seq clk base deps hl ha hs
    have hr : alLookup ha (b.ptid, seq, clk) = none := hs.lookup_none (b.ptid, seq, clk) hl
    rw [hbAux_same b b.ptid ctxt seq clk base deps h hl rfl,
      hbAux_same a b.ptid ctxt seq clk base deps ha hr hpt]
    have himp : happens_before_in_task b (.mk b.ptid ctxt seq clk base deps) = true →
        happens_before_in_task a (.mk b.ptid ctxt seq clk base deps) = true :=
      fun hx => happens_before_in_task_trans a b _ hab hx
    exact ⟨himp, Or.inr (HistSync.push hs himp)⟩
  -- case 3: base branch, left base query true
  · intro h p ctxt seq clk deps hl hne b0 pdef hp1 ih ha hs
    have hne2 : ¬ a.ptid = p := by rw [hpt]; exact hne
    have hr : alLookup ha (p, seq, clk) = none := hs.lookup_none (p, seq, clk) hl
    rw [hbAux_base b p ctxt seq clk b0 deps h hl hne,
      hbAux_base a p ctxt seq clk b0 deps ha hr hne2]
    have iha := ih ha hs
    have hpa : (hbAux a b0 ha).1 = true := iha.1 hp1
    simp [hp1, hpa]
  -- case 4: base branch, left base query false, fall through to deps
  · intro h p ctxt seq clk deps hl hne b0 pdef hp1 ihb ihd ha hs
    have hne2 : ¬ a.ptid = p := by rw [hpt]; exact hne
    have hr : alLookup ha (p, seq, clk) = none := hs.lookup_none (p, seq, clk) hl
    have hp1b : (hbAux b b0 h).1 = false := by simpa using hp1
    have ihd2 : ∀ ha2, HistSync (hbAux b b0 h).2 ha2 →
        (((hbDeps b deps (hbAux b b0 h).2).1 = true → (hbDeps a deps ha2).1 = true) ∧
          (((hbDeps a deps ha2).1 = true) ∨
            HistSync (hbDeps b deps (hbAux b b0 h).2).2 (hbDeps a deps ha2).2)) := ihd
    rw [hbAux_base b p ctxt seq clk b0 deps h hl hne,
      hbAux_base a p ctxt seq clk b0 deps ha hr hne2]
    have ihb2 := ihb ha hs
    by_cases hpa : (hbAux a b0 ha).1 = true
    · simp [hp1b, hpa]
    · have hpaf : (hbAux a b0 ha).1 = false := by simpa using hpa
      have hsync2 : HistSync (hbAux b b0 h).2 (hbAux a b0 ha).2 := by
        rcases ihb2.2 with hx | hx
        · exact absurd hx hpa
        · exact hx
      have ihd3 := ihd2 (hbAux a b0 ha).2 hsync2
      simp only [hp1b, hpaf, Bool.false_eq_true, if_false]
      refine ⟨fun hq => ihd3.1 hq, ?_⟩
      rcases ihd3.2 with hx | hx
      · exact Or.inl hx
      · exact Or.inr (HistSync.push hx ihd3.1)
  -- case 5: no base
  · intro h p ctxt seq clk deps hl hne ihd ha hs
    have hne2 : ¬ a.ptid = p := by rw [hpt]; exact hne
    have hr : alLookup ha (p, seq, clk) = none := hs.lookup_none (p, seq, clk) hl
    rw [hbAux_nobase b p ctxt seq clk deps h hl hne,
      hbAux_nobase a p ctxt seq clk deps ha hr hne2]
    have ihd2 := ihd ha hs
    refine ⟨fun hq => ihd2.1 hq, ?_⟩
    rcases ihd2.2 with hx | hx
    · exact Or.inl hx
    · exact Or.inr (HistSync.push hx ihd2.1)
  -- case 6: empty dep list
  · intro h ha hs
    rw [hbDeps_nil, hbDeps_nil]
    exact ⟨fun hx => by simp at hx, Or.inr hs⟩
  -- case 7: dep head true on the left
  · intro h f d t pdef hp1 ih ha hs
    rw [hbDeps_cons, hbDeps_cons]
    have iha := ih ha hs
    have hpa : (hbAux a d ha).1 = true := iha.1 hp1
    simp [hp1, hpa]
  -- case 8: dep head false on the left
  · intro h f d t pdef hp1 ihh iht ha hs
    have hp1b : (hbAux b d h).1 = false := by simpa using hp1
    have iht2 : ∀ ha2, HistSync (hbAux b d h).2 ha2 →
        (((hbDeps b t (hbAux b d h).2).1 = true → (hbDeps a t ha2).1 = true) ∧
          (((hbDeps a t ha2).1 = true) ∨
            HistSync (hbDeps b t (hbAux b d h).2).2 (hbDeps a t ha2).2)) := iht
    rw [hbDeps_cons, hbDeps_cons]
    have ihh2 := ihh ha hs
    by_cases hpa : (hbAux a d ha).1 = true
    · simp [hp1b, hpa]
    · have hpaf : (hbAux a d ha).1 = false := by simpa using hpa
      have hsync2 : HistSync (hbAux b d h).2 (hbAux a d ha).2 := by
        rcases ihh2.2 with hx | hx
        · exact absurd hx hpa
        · exact hx
      have iht3 := iht2 (hbAux a d ha).2 hsync2
      simp only [hp1b, hpaf, Bool.false_eq_true, if_false]
      exact iht3

/- ### C1: the concrete run refuting transitivity -/

def isOkE {ε α : Type} : Except ε α → Bool
  | .ok _ => true
  | .error _ => false

/-- A ledger prefix: syscall unit of task 1 registers a work callback
that steals the task, the callback publishes through queue 888, task 2
consumes 888 and publishes through 999, and the restored syscall unit of
task 1 consumes 999. -/
def c1Prefix : List LEvent :=
  [ .sysLaunch 1,
    .ctxtSyscallEnter 1 100,
    .asyncWorkRegister 1 777 300,
    .ctxtWorkEnter 1 777 300,
    .eventQueueNotify 1 888,
    .ctxtWorkExit 1 777 300,
    .ctxtSyscallEnter 2 101,
    .eventQueueArrive 2 888,
    .eventQueueNotify 2 999,
    .eventQueueArrive 1 999 ]

/-- The complete ledger: the prefix followed by clean context exits and
the finish record. -/
def c1Full : List LEvent :=
  c1Prefix ++ [ .ctxtSyscallExit 1 100, .ctxtSyscallExit 2 101, .sysFinish 1 ]

/-- The analyzer state after processing the prefix. -/
def c1S : AnState :=
  match runEvents initAnState c1Prefix with
  | .ok s => s
  | .error _ => initAnState

/-- Point c: the live syscall unit of task 1 after the run. -/
def c1c : ExecUnit := ((alLookup c1S.tasks 1).getD (TaskState.create 0)).unit

/-- Point b: the task-2 snapshot recorded in c's dependency map. -/
def c1b : ExecUnit := (depLookup c1c.deps 2).getD (ExecUnit.create 0)

/-- Point a: the work-callback snapshot recorded in b's dependency map. -/
def c1a : ExecUnit := (depLookup c1b.deps 1).getD (ExecUnit.create 0)

def c1aLit : ExecUnit :=
  .mk 1 (some 777) 1 1 (.some (.mk 1 (some 100) 0 1 .none .nil))
    (.cons 1 (.mk 1 (some 100) 0 1 .none .nil) .nil)
def c1bLit : ExecUnit := .mk 2 (some 101) 0 2 .none (.cons 1 c1aLit .nil)
def c1cLit : ExecUnit := .mk 1 (some 100) 0 2 .none (.cons 2 c1bLit .nil)

set_option maxHeartbeats 1000000 in
theorem c1_extract_a : c1a = c1aLit := by rfl
set_option maxHeartbeats 1000000 in
theorem c1_extract_b : c1b = c1bLit := by rfl
set_option maxHeartbeats 1000000 in
theorem c1_extract_c : c1c = c1cLit := by rfl
theorem c1_hb_ab : ExecUnit.happens_before c1aLit c1bLit = true := by rfl
theorem c1_hb_bc : ExecUnit.happens_before c1bLit c1cLit = true := by rfl
theorem c1_hb_ac : ExecUnit.happens_before c1aLit c1cLit = false := by rfl
set_option maxHeartbeats 1000000 in
theorem c1_run_ok : isOkE (runEvents initAnState c1Full) = true := by rfl

/-- C1 counterexample: the ledger `c1Full` is accepted end to end by the
analyzer, and the three points `c1a`, `c1b`, `c1c` reached in this run
satisfy `hb(a,b)` and `hb(b,c)` but not `hb(a,c)`: the happens-before
query is not transitive (the same-task comparison between `a` and `c` is
final and ignores the dependency path through `b`). -/
theorem C1_hb_transitivity_counterexample :
    isOkE (runEvents initAnState c1Full) = true ∧
    ExecUnit.happens_before c1a c1b = true ∧
    ExecUnit.happens_before c1b c1c = true ∧
    ExecUnit.happens_before c1a c1c = false :=
  ⟨c1_run_ok,
    by rw [c1_extract_a, c1_extract_b]; exact c1_hb_ab,
    by rw [c1_extract_b, c1_extract_c]; exact c1_hb_bc,
    by rw [c1_extract_a, c1_extract_c]; exact c1_hb_ac⟩

/-- C1 amended: the happens-before query is transitive whenever the
first two points belong to the same ptid: if `a.ptid = b.ptid`,
`hb(a,b)` and `hb(b,c)`, then `hb(a,c)` (for all units, memoization
included). -/
theorem C1_hb_transitivity_amended (a b c : ExecUnit)
    (hpt : a.ptid = b.ptid)
    (h1 : ExecUnit.happens_before a b = true)
    (h2 : ExecUnit.happens_before b c = true) :
    ExecUnit.happens_before a c = true := by
  have hab : happens_before_in_task a b = true := by
    rw [happens_before_same_ptid a b hpt] at h1
    exact h1
  have key := hbAux_sync_mono b a hab hpt c [] [] HistSync.nil
  rw [ExecUnit.happens_before] at h2 ⊢
  exact key.1 h2

/-- Witness for the amended C1 at concrete points. -/
theorem C1_hb_transitivity_amended_witness :
    ExecUnit.happens_before (.mk 1 none 0 0 .none .nil)
      (.mk 2 none 0 0 .none (.cons 1 (.mk 1 none 0 1 .none .nil) .nil)) = true :=
  C1_hb_transitivity_amended (.mk 1 none 0 0 .none .nil)
    (.mk 1 none 0 1 .none .nil)
    (.mk 2 none 0 0 .none (.cons 1 (.mk 1 none 0 1 .none .nil) .nil))
    rfl (by rfl) (by rfl)

/- ### C9 -/

/-- C9: the ORDER_PS_PUBLISH and ORDER_PS_SUBSCRIBE handlers leave the
order-slot table, the task table (hence every unit's `deps` and `base`),
and all other analyzer state unchanged; their only effect is appending
one transcript line, so they contribute no happens-before edges. -/
theorem C9_order_ps_no_hb_effect (A : AnState) (meta : LogMeta)
    (task : TaskState) (addr : Nat) :
    ((log_order_ps_publish A meta task addr).order_slots = A.order_slots ∧
      (log_order_ps_publish A meta task addr).tasks = A.tasks ∧
      (log_order_ps_publish A meta task addr).async_slots = A.async_slots ∧
      (log_order_ps_publish A meta task addr).event_slots = A.event_slots ∧
      (log_order_ps_publish A meta task addr).queue_slots = A.queue_slots ∧
      (log_order_ps_publish A meta task addr).cells = A.cells ∧
      (log_order_ps_publish A meta task addr).races = A.races ∧
      (log_order_ps_publish A meta task addr).console =
        A.console ++ [RLine.orderPre meta.ptid task.unit.seq addr "RCU"]) ∧
    ((log_order_ps_subscribe A meta task addr).order_slots = A.order_slots ∧
      (log_order_ps_subscribe A meta task addr).tasks = A.tasks ∧
      (log_order_ps_subscribe A meta task addr).async_slots = A.async_slots ∧
      (log_order_ps_subscribe A meta task addr).event_slots = A.event_slots ∧
      (log_order_ps_subscribe A meta task addr).queue_slots = A.queue_slots ∧
      (log_order_ps_subscribe A meta task addr).cells = A.cells ∧
      (log_order_ps_subscribe A meta task addr).races = A.races ∧
      (log_order_ps_subscribe A meta task addr).console =
        A.console ++ [RLine.orderSuf meta.ptid task.unit.seq addr "RCU"]) := by
  constructor <;>
    exact ⟨rfl, rfl, rfl, rfl, rfl, rfl, rfl, rfl⟩

def c7Events : List LEvent :=
  [ .sysLaunch 1,
    .ctxtSyscallEnter 1 100,
    .asyncWorkRegister 1 777 300,
    .ctxtWorkEnter 2 777 300,
    .eventWaitArrive 1 555 400,
    .eventWaitPass 1 555 400,
    .eventQueueNotify 1 888,
    .eventQueueArrive 2 888 ]

def c7S : AnState :=
  match runEvents initAnState c7Events with
  | .ok s => s
  | .error _ => initAnState

theorem c7_ok : isOkE (runEvents initAnState c7Events) = true := by rfl
theorem c7_async : (alLookup c7S.async_slots 777).isSome = true := by rfl
theorem c7_event : (alLookup c7S.event_slots 555).isSome = true := by rfl
theorem c7_queue : (alLookup c7S.queue_slots 888).isSome = true := by rfl



theorem exceptBind_ok {ε α β : Type} (x : Except ε α) (f : α → Except ε β) (b : β)
    (h : (x >>= f) = .ok b) : ∃ a, x = .ok a ∧ f a = .ok b := by
  cases x with
  | error e => simp [Bind.bind, Except.bind] at h
  | ok a => exact ⟨a, rfl, by simpa [Bind.bind, Except.bind] using h⟩

theorem exceptPureBind {ε α β : Type} (a : α) (f : α → Except ε β) :
    ((pure a : Except ε α) >>= f) = f a := rfl

theorem exceptThrow_eq_error {ε α : Type} (e : ε) :
    (throw e : Except ε α) = .error e := rfl

theorem exceptErrorBind {ε α β : Type} (e : ε) (f : α → Except ε β) :
    ((Except.error e : Except ε α) >>= f) = .error e := rfl

theorem exceptThrow_ne_ok {ε α : Type} (e : ε) (b : α)
    (h : (throw e : Except ε α) = .ok b) : False := by
  rw [exceptThrow_eq_error] at h
  cases h

theorem exceptPure_ok {ε α : Type} (a b : α)
    (h : (pure a : Except ε α) = .ok b) : a = b := by
  cases h
  rfl

theorem c7_amended_enter (A : AnState) (meta : LogMeta) (func : Nat)
    (kind : String) (A2 : AnState)
    (h : log_ctxt_indirect_enter A meta func kind = .ok A2) :
    ∃ s, alLookup A2.async_slots meta.hval = some s ∧ s.func = 0 ∧ s.serving = func := by
  rw [log_ctxt_indirect_enter] at h
  cases hx : alLookup A.async_slots meta.hval with
  | none =>
    rw [hx] at h
    exact absurd h (fun hc => exceptThrow_ne_ok _ _ hc)
  | some slot =>
    rw [hx] at h
    by_cases hf : slot.func = func
    case neg =>
      simp [hf, throw, throwThe, MonadExceptOf.throw, Bind.bind, Except.bind] at h
    case pos =>
      simp only [hf, ne_eq, not_true_eq_false, if_false, if_neg, exceptPureBind] at h
      obtain ⟨pr, hg, h2⟩ := exceptBind_ok _ _ _ h
      obtain ⟨task, slotOut⟩ := pr
      cases slotOut with
      | none => exact absurd h2 (fun hc => exceptThrow_ne_ok _ _ hc)
      | some slot2 =>
        by_cases hb : task.unit.base.isSome = true
        · simp only [hb, if_pos, exceptThrow_eq_error, exceptErrorBind] at h2
          cases h2
        · simp only [hb, if_false, if_neg, exceptPureBind] at h2
          have hA2 := exceptPure_ok _ _ h2
          subst hA2
          refine ⟨⟨0, slot2.unit, [], func, slot2.host⟩, ?_, rfl, rfl⟩
          simp [log_ctxt_enter_put_task, alLookup_alInsert_self]

theorem c7_amended_pass (A : AnState) (meta : LogMeta) (task : TaskState)
    (func : Nat) (kind : String) (A2 : AnState)
    (h : log_event_pass A meta task func kind = .ok A2) :
    ∃ s, alLookup A2.event_slots meta.hval = some s ∧ s.func = 0 := by
  rw [log_event_pass] at h
  cases hx : alLookup A.event_slots meta.hval with
  | none =>
    rw [hx] at h
    exact absurd h (fun hc => exceptThrow_ne_ok _ _ hc)
  | some slot =>
    rw [hx] at h
    have hA2 := exceptPure_ok _ _ h
    subst hA2
    exact ⟨{ slot with func := 0 }, by simp [alLookup_alInsert_self], rfl⟩

/-- C7 counterexample: after the consuming operations of the run
`c7Events` (indirect work-context enter for fork slot 777, wait pass for
event slot 555, queue arrive for queue slot 888) all three keys are
still present in their global tables. -/
theorem C7_slot_eviction_counterexample :
    isOkE (runEvents initAnState c7Events) = true ∧
    (alLookup c7S.async_slots 777).isSome = true ∧
    (alLookup c7S.event_slots 555).isSome = true ∧
    (alLookup c7S.queue_slots 888).isSome = true :=
  ⟨c7_ok, c7_async, c7_event, c7_queue⟩

/-- C7 amended: consuming operations retain the slots in their global
tables and only reset the bookkeeping: a successful indirect context
enter keeps the fork slot with `func = 0` and `serving` set to the
callback; an event pass keeps the event slot with `func = 0`; a queue
arrive leaves the queue-slot table unchanged. -/
theorem C7_slot_retention_amended :
    (∀ (A : AnState) (meta : LogMeta) (func : Nat) (kind : String) (A2 : AnState),
      log_ctxt_indirect_enter A meta func kind = .ok A2 →
      ∃ s, alLookup A2.async_slots meta.hval = some s ∧ s.func = 0 ∧ s.serving = func) ∧
    (∀ (A : AnState) (meta : LogMeta) (task : TaskState) (func : Nat)
        (kind : String) (A2 : AnState),
      log_event_pass A meta task func kind = .ok A2 →
      ∃ s, alLookup A2.event_slots meta.hval = some s ∧ s.func = 0) ∧
    (∀ (A : AnState) (meta : LogMeta) (task : TaskState),
      (log_event_queue_arrive A meta task).queue_slots = A.queue_slots) :=
  ⟨c7_amended_enter, c7_amended_pass, fun _ _ _ => rfl⟩

def c7S3 : AnState :=
  match runEvents initAnState (c7Events.take 3) with
  | .ok s => s
  | .error _ => initAnState

def c7S4 : AnState :=
  match log_ctxt_indirect_enter c7S3 ⟨2, 0, 777⟩ 300 "WORK" with
  | .ok s => s
  | .error _ => initAnState

def c7S5 : AnState :=
  match runEvents initAnState (c7Events.take 5) with
  | .ok s => s
  | .error _ => initAnState

def c7S6 : AnState :=
  match log_event_pass c7S5 ⟨1, 0, 555⟩ (TaskState.create 1) 400 "WAIT" with
  | .ok s => s
  | .error _ => initAnState

/-- Witness for the amended C7 at concrete states drawn from the run. -/
theorem C7_slot_retention_amended_witness :
    (∃ s, alLookup c7S4.async_slots 777 = some s ∧ s.func = 0 ∧ s.serving = 300) ∧
    (∃ s, alLookup c7S6.event_slots 555 = some s ∧ s.func = 0) ∧
    (log_event_queue_arrive c7S5 ⟨2, 0, 888⟩ (TaskState.create 2)).queue_slots =
      c7S5.queue_slots :=
  ⟨C7_slot_retention_amended.1 c7S3 ⟨2, 0, 777⟩ 300 "WORK" c7S4 (by rfl),
    C7_slot_retention_amended.2.1 c7S5 ⟨1, 0, 555⟩ (TaskState.create 1) 400 "WAIT" c7S6 (by rfl),
    C7_slot_retention_amended.2.2 c7S5 ⟨2, 0, 888⟩ (TaskState.create 2)⟩

theorem c6_amended_fatal (A : AnState) (meta : LogMeta) (task : TaskState) (lock : Nat)
    (hcond : (SyncInfo.is_try ⟨meta.info⟩ && !SyncInfo.is_succ ⟨meta.info⟩) = false)
    (hrw : SyncInfo.is_rw ⟨meta.info⟩ = false)
    (hbegin : ((alLookup task.sync_trans.trans_r.trans lock).getD ⟨none, none⟩).begin_u = none) :
    log_sync_seq_unlock A meta task lock =
      .error "seq_lock [S] released with wrong depth" := by
  rw [log_sync_seq_unlock]
  simp only [hcond, hrw, Bool.false_eq_true, if_false,
    TranMap.del_tran_r, TranMapImpl.del_tran, hbegin, exceptThrow_eq_error]

theorem c6_amended_tolerated (A : AnState) (meta : LogMeta) (task : TaskState)
    (lock : Nat) (pu : ExecUnit)
    (hcond : (SyncInfo.is_try ⟨meta.info⟩ && !SyncInfo.is_succ ⟨meta.info⟩) = false)
    (hrw : SyncInfo.is_rw ⟨meta.info⟩ = false)
    (hbegin : ((alLookup task.sync_trans.trans_r.trans lock).getD ⟨none, none⟩).begin_u = some pu)
    (hseq : pu.seq = task.unit.seq) :
    isOkE (log_sync_seq_unlock A meta task lock) = true := by
  rw [log_sync_seq_unlock]
  simp only [hcond, hrw, Bool.false_eq_true, if_false,
    TranMap.del_tran_r, TranMapImpl.del_tran, hbegin, hseq]
  simp only [ne_eq, not_true_eq_false, if_false]
  rfl

/-- C6 counterexample: a seqlock reader unlock (`info = 1`: succeed bit
only, rw bit clear) on a fresh task with no recorded begin makes the
analyzer raise DartAssertFailure (modelled as `Except.error`) instead of
logging a warning and continuing. -/
theorem C6_seq_unlock_counterexample :
    log_sync_seq_unlock initAnState ⟨1, 1, 0⟩ (TaskState.create 1) 66 =
      .error "seq_lock [S] released with wrong depth" := by rfl

/-- C6 amended: a seqlock reader unlock whose transaction id has no
recorded begin is a fatal protocol violation (DartAssertFailure); what
is tolerated is an extra unlock after a begin in the same unit. -/
theorem C6_seq_unlock_fatal_amended :
    (∀ (A : AnState) (meta : LogMeta) (task : TaskState) (lock : Nat),
      (SyncInfo.is_try ⟨meta.info⟩ && !SyncInfo.is_succ ⟨meta.info⟩) = false →
      SyncInfo.is_rw ⟨meta.info⟩ = false →
      ((alLookup task.sync_trans.trans_r.trans lock).getD ⟨none, none⟩).begin_u = none →
      log_sync_seq_unlock A meta task lock =
        .error "seq_lock [S] released with wrong depth") ∧
    (∀ (A : AnState) (meta : LogMeta) (task : TaskState) (lock : Nat) (pu : ExecUnit),
      (SyncInfo.is_try ⟨meta.info⟩ && !SyncInfo.is_succ ⟨meta.info⟩) = false →
      SyncInfo.is_rw ⟨meta.info⟩ = false →
      ((alLookup task.sync_trans.trans_r.trans lock).getD ⟨none, none⟩).begin_u = some pu →
      pu.seq = task.unit.seq →
      isOkE (log_sync_seq_unlock A meta task lock) = true) :=
  ⟨c6_amended_fatal, c6_amended_tolerated⟩

def c6TolTask : TaskState :=
  { TaskState.create 1 with
      sync_trans := ⟨⟨[(66, ⟨some (ExecUnit.create 1), none⟩)]⟩, ⟨[]⟩⟩ }

/-- Witness for the amended C6 at concrete inputs. -/
theorem C6_seq_unlock_fatal_amended_witness :
    log_sync_seq_unlock initAnState ⟨1, 1, 0⟩ (TaskState.create 2) 66 =
        .error "seq_lock [S] released with wrong depth" ∧
      isOkE (log_sync_seq_unlock initAnState ⟨1, 1, 0⟩ c6TolTask 66) = true :=
  ⟨C6_seq_unlock_fatal_amended.1 initAnState ⟨1, 1, 0⟩ (TaskState.create 2) 66
      (by rfl) (by rfl) (by rfl),
    C6_seq_unlock_fatal_amended.2 initAnState ⟨1, 1, 0⟩ c6TolTask 66
      (ExecUnit.create 1) (by rfl) (by rfl) (by rfl) (by rfl)⟩

def c5S0 : AnState :=
  { initAnState with async_slots := [(7, ⟨300, ExecUnit.create 9, [], 0, none⟩)] }

def c5S1 : AnState :=
  match log_ctxt_rcu_enter c5S0 ⟨1, 0, 7⟩ 300 with
  | .ok s => s
  | .error _ => initAnState





theorem ExecUnit.ptid_mk (p : Nat) (c : Option Nat) (s k : Nat) (b : UnitOpt)
    (d : DepList) : (ExecUnit.mk p c s k b d).ptid = p := rfl
theorem ExecUnit.ctxt_mk (p : Nat) (c : Option Nat) (s k : Nat) (b : UnitOpt)
    (d : DepList) : (ExecUnit.mk p c s k b d).ctxt = c := rfl
theorem ExecUnit.seq_mk (p : Nat) (c : Option Nat) (s k : Nat) (b : UnitOpt)
    (d : DepList) : (ExecUnit.mk p c s k b d).seq = s := rfl
theorem ExecUnit.clk_mk (p : Nat) (c : Option Nat) (s k : Nat) (b : UnitOpt)
    (d : DepList) : (ExecUnit.mk p c s k b d).clk = k := rfl
theorem ExecUnit.base_mk (p : Nat) (c : Option Nat) (s k : Nat) (b : UnitOpt)
    (d : DepList) : (ExecUnit.mk p c s k b d).base = b := rfl
theorem ExecUnit.deps_mk (p : Nat) (c : Option Nat) (s k : Nat) (b : UnitOpt)
    (d : DepList) : (ExecUnit.mk p c s k b d).deps = d := rfl

theorem ExecUnit.setCtxt_mk (p : Nat) (c : Option Nat) (s k : Nat) (b : UnitOpt)
    (d : DepList) (c2 : Option Nat) :
    (ExecUnit.mk p c s k b d).setCtxt c2 = .mk p c2 s k b d := rfl
theorem ExecUnit.setSeq_mk (p : Nat) (c : Option Nat) (s k : Nat) (b : UnitOpt)
    (d : DepList) (s2 : Nat) :
    (ExecUnit.mk p c s k b d).setSeq s2 = .mk p c s2 k b d := rfl
theorem ExecUnit.setClk_mk (p : Nat) (c : Option Nat) (s k : Nat) (b : UnitOpt)
    (d : DepList) (k2 : Nat) :
    (ExecUnit.mk p c s k b d).setClk k2 = .mk p c s k2 b d := rfl
theorem ExecUnit.setBase_mk (p : Nat) (c : Option Nat) (s k : Nat) (b : UnitOpt)
    (d : DepList) (b2 : UnitOpt) :
    (ExecUnit.mk p c s k b d).setBase b2 = .mk p c s k b2 d := rfl
theorem ExecUnit.setDeps_mk (p : Nat) (c : Option Nat) (s k : Nat) (b : UnitOpt)
    (d : DepList) (d2 : DepList) :
    (ExecUnit.mk p c s k b d).setDeps d2 = .mk p c s k b d2 := rfl

theorem ExecUnit.setCtxt_ctxt (u : ExecUnit) (c : Option Nat) :
    (u.setCtxt c).ctxt = c := by cases u; rfl
theorem ExecUnit.setClk_ctxt (u : ExecUnit) (k : Nat) :
    (u.setClk k).ctxt = u.ctxt := by cases u; rfl
theorem ExecUnit.setDeps_ctxt (u : ExecUnit) (d : DepList) :
    (u.setDeps d).ctxt = u.ctxt := by cases u; rfl
theorem ExecUnit.setBase_ctxt (u : ExecUnit) (b : UnitOpt) :
    (u.setBase b).ctxt = u.ctxt := by cases u; rfl
theorem ExecUnit.setBase_base (u : ExecUnit) (b : UnitOpt) :
    (u.setBase b).base = b := by cases u; rfl
theorem ExecUnit.setClk_base (u : ExecUnit) (k : Nat) :
    (u.setClk k).base = u.base := by cases u; rfl
theorem ExecUnit.setCtxt_base (u : ExecUnit) (c : Option Nat) :
    (u.setCtxt c).base = u.base := by cases u; rfl
theorem ExecUnit.setDeps_base (u : ExecUnit) (d : DepList) :
    (u.setDeps d).base = u.base := by cases u; rfl

theorem ExecUnit.add_dep_ctxt (u d : ExecUnit) : (u.add_dep d).ctxt = u.ctxt := by
  rw [ExecUnit.add_dep]
  cases depLookup u.deps d.ptid with
  | none => exact u.setDeps_ctxt _
  | some old =>
    by_cases hh : happens_before_in_task old d <;>
      simp [hh, ExecUnit.setDeps_ctxt]

theorem ExecUnit.add_dep_base (u d : ExecUnit) : (u.add_dep d).base = u.base := by
  rw [ExecUnit.add_dep]
  cases depLookup u.deps d.ptid with
  | none => exact u.setDeps_base _
  | some old =>
    by_cases hh : happens_before_in_task old d <;>
      simp [hh, ExecUnit.setDeps_base]

theorem foldl_add_dep_ctxt (l : List ExecUnit) (u : ExecUnit) :
    (l.foldl (fun acc item => acc.add_dep item) u).ctxt = u.ctxt := by
  induction l generalizing u with
  | nil => rfl
  | cons hd t ih => rw [List.foldl_cons, ih, ExecUnit.add_dep_ctxt]

theorem foldl_add_dep_base (l : List ExecUnit) (u : ExecUnit) :
    (l.foldl (fun acc item => acc.add_dep item) u).base = u.base := by
  induction l generalizing u with
  | nil => rfl
  | cons hd t ih => rw [List.foldl_cons, ih, ExecUnit.add_dep_base]

theorem unit_match_ptid (u : ExecUnit) :
    (match u with | ExecUnit.mk p _ _ _ _ _ => p) = u.ptid := by cases u; rfl
theorem unit_match_ctxt (u : ExecUnit) :
    (match u with | ExecUnit.mk _ c _ _ _ _ => c) = u.ctxt := by cases u; rfl
theorem unit_match_seq (u : ExecUnit) :
    (match u with | ExecUnit.mk _ _ s _ _ _ => s) = u.seq := by cases u; rfl
theorem unit_match_clk (u : ExecUnit) :
    (match u with | ExecUnit.mk _ _ _ k _ _ => k) = u.clk := by cases u; rfl
theorem unit_match_base (u : ExecUnit) :
    (match u with | ExecUnit.mk _ _ _ _ b _ => b) = u.base := by cases u; rfl
theorem unit_match_deps (u : ExecUnit) :
    (match u with | ExecUnit.mk _ _ _ _ _ d => d) = u.deps := by cases u; rfl
theorem unit_match_setCtxt (u : ExecUnit) (c2 : Option Nat) :
    (match u, c2 with | ExecUnit.mk p _ s k b d, c => ExecUnit.mk p c s k b d) =
      u.setCtxt c2 := by cases u; rfl
theorem unit_match_setSeq (u : ExecUnit) (s2 : Nat) :
    (match u, s2 with | ExecUnit.mk p c _ k b d, s => ExecUnit.mk p c s k b d) =
      u.setSeq s2 := by cases u; rfl
theorem unit_match_setClk (u : ExecUnit) (k2 : Nat) :
    (match u, k2 with | ExecUnit.mk p c s _ b d, k => ExecUnit.mk p c s k b d) =
      u.setClk k2 := by cases u; rfl
theorem unit_match_setBase (u : ExecUnit) (b2 : UnitOpt) :
    (match u, b2 with | ExecUnit.mk p c s k _ d, b => ExecUnit.mk p c s k b d) =
      u.setBase b2 := by cases u; rfl
theorem unit_match_setDeps (u : ExecUnit) (d2 : DepList) :
    (match u, d2 with | ExecUnit.mk p c s k b _, d => ExecUnit.mk p c s k b d) =
      u.setDeps d2 := by cases u; rfl

/-- Extract the success state of a handler result (dummy on error). -/

def exOk (x : Except String AnState) : AnState :=
  match x with
  | .ok s => s
  | .error _ => initAnState


theorem c5_enter_writer_lock (A : AnState) (hval func ptid : Nat) (slot : AsyncSlot)
    (hslot : alLookup A.async_slots hval = some slot)
    (hfunc : slot.func = func)
    (htask : alLookup A.tasks ptid = none) :
    isOkE (log_ctxt_rcu_enter A ⟨ptid, 0, hval⟩ func) = true ∧
    alLookup ((alLookup (exOk (log_ctxt_rcu_enter A ⟨ptid, 0, hval⟩ func)).tasks ptid).getD
        (TaskState.create 0)).sync_locks.locks_w.locks DART_LOCK_ID_RCU = some 1 ∧
    ((alLookup (exOk (log_ctxt_rcu_enter A ⟨ptid, 0, hval⟩ func)).tasks ptid).getD
        (TaskState.create 0)).sync_locks.locks_r.locks = [] ∧
    ((alLookup (exOk (log_ctxt_rcu_enter A ⟨ptid, 0, hval⟩ func)).tasks ptid).getD
        (TaskState.create 0)).unit.ctxt = some hval := by
  refine ⟨?_, ?_, ?_, ?_⟩ <;>
    simp [log_ctxt_rcu_enter, log_ctxt_indirect_enter, hslot, hfunc,
      log_ctxt_enter_get_task, htask, exceptPureBind, log_ctxt_enter_put_task,
      TaskState.create, ExecUnit.create, ExecUnit.clone,
      ExecUnit.setCtxt_mk, ExecUnit.setSeq_mk, ExecUnit.setClk_mk,
      ExecUnit.setBase_mk, ExecUnit.setDeps_mk,
      ExecUnit.ptid_mk, ExecUnit.ctxt_mk, ExecUnit.seq_mk, ExecUnit.clk_mk,
      ExecUnit.base_mk, ExecUnit.deps_mk, UnitOpt.isSome,
      alLookup_alInsert_self,
      foldl_add_dep_ctxt, foldl_add_dep_base,
      unit_match_ctxt, unit_match_base,
      log_sync_rcu_lock, SyncInfo.is_rw, SyncInfo.is_try, SyncInfo.is_succ,
      LockMap.add_lock_w, LockMapImpl.add_lock, LockMap.create, alLookup,
      alInsert, DART_LOCK_ID_RCU, exOk, isOkE,
      Bind.bind, Except.bind, pure, Except.pure]

theorem c5_exit_writer_unlock (A1 : AnState) (hval func ptid : Nat)
    (t1 : TaskState) (slot1 : AsyncSlot) (bu : ExecUnit)
    (htask1 : alLookup A1.tasks ptid = some t1)
    (hctxt : t1.unit.ctxt = some hval)
    (hbase : t1.unit.base = .some bu)
    (hslot1 : alLookup A1.async_slots hval = some slot1)
    (hserv : slot1.serving = func)
    (hhost1 : slot1.host = none)
    (hlw : t1.sync_locks.locks_w.locks = [(DART_LOCK_ID_RCU, 1)]) :
    isOkE (log_ctxt_rcu_exit A1 ⟨ptid, 0, hval⟩ func) = true ∧
    alLookup ((alLookup (exOk (log_ctxt_rcu_exit A1 ⟨ptid, 0, hval⟩ func)).tasks
        ptid).getD (TaskState.create 0)).sync_locks.locks_w.locks
      DART_LOCK_ID_RCU = none ∧
    ((alLookup (exOk (log_ctxt_rcu_exit A1 ⟨ptid, 0, hval⟩ func)).tasks ptid).getD
        (TaskState.create 0)).unit.ctxt = none := by
  refine ⟨?_, ?_, ?_⟩ <;>
    simp [log_ctxt_rcu_exit, log_ctxt_indirect_exit, htask1, hctxt, hbase,
      hslot1, hserv, hhost1, hlw,
      log_ctxt_exit_get_task, log_ctxt_exit_put_task, exceptPureBind,
      log_sync_rcu_unlock, SyncInfo.is_rw, SyncInfo.is_try, SyncInfo.is_succ,
      LockMap.del_lock_w, LockMapImpl.del_lock, alLookup, alInsert, alErase,
      ExecUnit.setCtxt_ctxt, ExecUnit.setClk_ctxt, ExecUnit.setDeps_ctxt,
      ExecUnit.setBase_ctxt, ExecUnit.setBase_base, ExecUnit.setClk_base,
      ExecUnit.setCtxt_base, ExecUnit.setDeps_base,
      unit_match_ctxt, unit_match_base, unit_match_setCtxt, unit_match_setSeq,
      unit_match_setClk, unit_match_setBase, unit_match_setDeps,
      alLookup_alInsert_self, DART_LOCK_ID_RCU, exOk, isOkE,
      Bind.bind, Except.bind, pure, Except.pure]

def UnitOpt.getD : UnitOpt → ExecUnit → ExecUnit
  | .none, d => d
  | .some u, _ => u

/-- C5: the spec calls the implicit RCU lock reader-side, but after a concrete
`log_ctxt_rcu_enter` the task's reader lockset has no entry for lock id 1 while
the writer lockset maps it to depth 1. -/
theorem C5_rcu_reader_lock_counterexample :
    isOkE (log_ctxt_rcu_enter c5S0 ⟨1, 0, 7⟩ 300) = true ∧
    alLookup ((alLookup c5S1.tasks 1).getD (TaskState.create 0)).sync_locks.locks_r.locks
      DART_LOCK_ID_RCU = none ∧
    alLookup ((alLookup c5S1.tasks 1).getD (TaskState.create 0)).sync_locks.locks_w.locks
      DART_LOCK_ID_RCU = some 1 := ⟨rfl, rfl, rfl⟩

/-- C5 (amended): entering an RCU context acquires an implicit lock with id 1 on
the WRITER side of the unit's lockset (the lock_meta sets the rw bit), leaving
the reader side untouched, and exiting the RCU context releases that writer-side
lock before the context exit resets the unit. -/
theorem C5_rcu_lock_side_amended :
    (∀ (A : AnState) (hval func ptid : Nat) (slot : AsyncSlot),
      alLookup A.async_slots hval = some slot → slot.func = func →
      alLookup A.tasks ptid = none →
      isOkE (log_ctxt_rcu_enter A ⟨ptid, 0, hval⟩ func) = true ∧
      alLookup ((alLookup (exOk (log_ctxt_rcu_enter A ⟨ptid, 0, hval⟩ func)).tasks ptid).getD
          (TaskState.create 0)).sync_locks.locks_w.locks DART_LOCK_ID_RCU = some 1 ∧
      ((alLookup (exOk (log_ctxt_rcu_enter A ⟨ptid, 0, hval⟩ func)).tasks ptid).getD
          (TaskState.create 0)).sync_locks.locks_r.locks = [] ∧
      ((alLookup (exOk (log_ctxt_rcu_enter A ⟨ptid, 0, hval⟩ func)).tasks ptid).getD
          (TaskState.create 0)).unit.ctxt = some hval) ∧
    (∀ (A1 : AnState) (hval func ptid : Nat) (t1 : TaskState) (slot1 : AsyncSlot)
        (bu : ExecUnit),
      alLookup A1.tasks ptid = some t1 → t1.unit.ctxt = some hval →
      t1.unit.base = .some bu → alLookup A1.async_slots hval = some slot1 →
      slot1.serving = func → slot1.host = none →
      t1.sync_locks.locks_w.locks = [(DART_LOCK_ID_RCU, 1)] →
      isOkE (log_ctxt_rcu_exit A1 ⟨ptid, 0, hval⟩ func) = true ∧
      alLookup ((alLookup (exOk (log_ctxt_rcu_exit A1 ⟨ptid, 0, hval⟩ func)).tasks
          ptid).getD (TaskState.create 0)).sync_locks.locks_w.locks DART_LOCK_ID_RCU = none ∧
      ((alLookup (exOk (log_ctxt_rcu_exit A1 ⟨ptid, 0, hval⟩ func)).tasks ptid).getD
          (TaskState.create 0)).unit.ctxt = none) :=
  ⟨fun A hval func ptid slot h1 h2 h3 => c5_enter_writer_lock A hval func ptid slot h1 h2 h3,
   fun A1 hval func ptid t1 slot1 bu h1 h2 h3 h4 h5 h6 h7 =>
     c5_exit_writer_unlock A1 hval func ptid t1 slot1 bu h1 h2 h3 h4 h5 h6 h7⟩

def c5T1 : TaskState := (alLookup c5S1.tasks 1).getD (TaskState.create 0)

def c5Slot1 : AsyncSlot := (alLookup c5S1.async_slots 7).getD ⟨0, ExecUnit.create 0, [], 0, none⟩

def c5Bu : ExecUnit := c5T1.unit.base.getD (ExecUnit.create 0)

theorem C5_rcu_lock_side_amended_witness :
    (isOkE (log_ctxt_rcu_enter c5S0 ⟨1, 0, 7⟩ 300) = true ∧
      alLookup ((alLookup (exOk (log_ctxt_rcu_enter c5S0 ⟨1, 0, 7⟩ 300)).tasks 1).getD
          (TaskState.create 0)).sync_locks.locks_w.locks DART_LOCK_ID_RCU = some 1 ∧
      ((alLookup (exOk (log_ctxt_rcu_enter c5S0 ⟨1, 0, 7⟩ 300)).tasks 1).getD
          (TaskState.create 0)).sync_locks.locks_r.locks = [] ∧
      ((alLookup (exOk (log_ctxt_rcu_enter c5S0 ⟨1, 0, 7⟩ 300)).tasks 1).getD
          (TaskState.create 0)).unit.ctxt = some 7) ∧
    (isOkE (log_ctxt_rcu_exit c5S1 ⟨1, 0, 7⟩ 300) = true ∧
      alLookup ((alLookup (exOk (log_ctxt_rcu_exit c5S1 ⟨1, 0, 7⟩ 300)).tasks 1).getD
          (TaskState.create 0)).sync_locks.locks_w.locks DART_LOCK_ID_RCU = none ∧
      ((alLookup (exOk (log_ctxt_rcu_exit c5S1 ⟨1, 0, 7⟩ 300)).tasks 1).getD
          (TaskState.create 0)).unit.ctxt = none) :=
  ⟨C5_rcu_lock_side_amended.1 c5S0 7 300 1 ⟨300, ExecUnit.create 9, [], 0, none⟩ rfl rfl rfl,
   C5_rcu_lock_side_amended.2 c5S1 7 300 1 c5T1 c5Slot1 c5Bu rfl rfl rfl rfl rfl rfl rfl⟩

/- ### C3: deny-list handling across the three race loops -/

def c3compdb : Nat → List String :=
  fun h => if h = 11 then ["kernel/linux/fs/btrfs/block-group.c:404:2"] else []

def c3compdb0 : Nat → List String := fun _ => []

def c3peerUnit : ExecUnit := .mk 2 none 5 0 .none .nil

def c3another : MemAccess := ⟨11, c3peerUnit, [], []⟩

def c3task : TaskState := TaskState.create 1

def c3access : MemAccess :=
  ⟨22, c3task.unit.clone, c3task.sync_locks.lockset_w, c3task.sync_trans.transet_w⟩

def c3A : AnState := { initAnState with cells := [(100, ⟨[], [(2, [c3another])]⟩)] }

def c3meta : LogMeta := ⟨1, 0, 22⟩

theorem c3_read_aux (compdb : Nat → List String) (bl : List String) (meta : LogMeta)
    (access : MemAccess) (p : Nat) (vals : List MemAccess) (another : MemAccess)
    (h : race_check_read compdb bl meta access p vals = some another) :
    race_blacklist compdb bl another access = false := by
  unfold race_check_read at h
  by_cases h1 : p = meta.ptid
  · simp [h1] at h
  · rw [if_neg h1] at h
    cases hl : vals.getLast? with
    | none => simp [hl] at h
    | some a =>
      simp only [hl] at h
      split_ifs at h with h2 h3 h4 h5 h6
      all_goals simp_all

theorem c3_wvr_aux (compdb : Nat → List String) (bl : List String) (meta : LogMeta)
    (access : MemAccess) (p : Nat) (vals : List MemAccess) (another : MemAccess)
    (h : race_check_write_vs_reader compdb bl meta access p vals = some another) :
    race_blacklist compdb bl another access = false := by
  unfold race_check_write_vs_reader at h
  by_cases h1 : p = meta.ptid
  · simp [h1] at h
  · rw [if_neg h1] at h
    cases hl : vals.getLast? with
    | none => simp [hl] at h
    | some a =>
      simp only [hl] at h
      split_ifs at h with h2 h3 h4 h5 h6
      all_goals simp_all

theorem c3_www_aux (meta : LogMeta) (access : MemAccess) (p : Nat)
    (vals : List MemAccess) (another : MemAccess)
    (h1 : p ≠ meta.ptid) (hl : vals.getLast? = some another)
    (h2 : ¬(meta.ctxt ≠ CtxtType.TASK ∧ CtxtType.from_ptid another.unit.ptid ≠ CtxtType.TASK))
    (h3 : another.unit.happens_before access.unit = false)
    (h4 : locks_intersect another.sync_locks access.sync_locks = false) :
    race_check_write_vs_writer meta access p vals = some another := by
  unfold race_check_write_vs_writer
  rw [if_neg h1]
  simp only [hl]
  rw [if_neg h2, if_neg (by simp [h3]), if_neg (by simp [h4])]

/-- C3: the deny list does not apply to write/write pairs: a pair whose peer
instruction resolves to a deny-list location passes `race_blacklist` yet the
writer-vs-writer loop still reports it, and `log_mem_cell_writer` records the
race in the aggregate table. -/
theorem C3_deny_list_counterexample :
    race_blacklist c3compdb RACE_BLACKLIST c3another c3access = true ∧
    race_check_write_vs_writer c3meta c3access 2 [c3another] = some c3another ∧
    alLookup (log_mem_cell_writer c3compdb RACE_BLACKLIST c3A c3meta c3task 100).races
      (11, 22) = some 1 := ⟨rfl, rfl, rfl⟩

/-- C3 (amended): the read-vs-writer and write-vs-reader loops report a pair
only when `race_blacklist` is false for it, but the write-vs-writer loop never
consults the deny list: a blacklisted pair passing the other filters is still
reported. -/
theorem C3_deny_list_amended :
    (∀ (compdb : Nat → List String) (bl : List String) (meta : LogMeta)
        (access : MemAccess) (p : Nat) (vals : List MemAccess) (another : MemAccess),
      race_check_read compdb bl meta access p vals = some another →
      race_blacklist compdb bl another access = false) ∧
    (∀ (compdb : Nat → List String) (bl : List String) (meta : LogMeta)
        (access : MemAccess) (p : Nat) (vals : List MemAccess) (another : MemAccess),
      race_check_write_vs_reader compdb bl meta access p vals = some another →
      race_blacklist compdb bl another access = false) ∧
    (∀ (compdb : Nat → List String) (bl : List String) (meta : LogMeta)
        (access : MemAccess) (p : Nat) (vals : List MemAccess) (another : MemAccess),
      p ≠ meta.ptid → vals.getLast? = some another →
      ¬(meta.ctxt ≠ CtxtType.TASK ∧ CtxtType.from_ptid another.unit.ptid ≠ CtxtType.TASK) →
      another.unit.happens_before access.unit = false →
      locks_intersect another.sync_locks access.sync_locks = false →
      race_blacklist compdb bl another access = true →
      race_check_write_vs_writer meta access p vals = some another) :=
  ⟨fun compdb bl meta access p vals another h =>
      c3_read_aux compdb bl meta access p vals another h,
   fun compdb bl meta access p vals another h =>
      c3_wvr_aux compdb bl meta access p vals another h,
   fun _ _ meta access p vals another h1 hl h2 h3 h4 _ =>
      c3_www_aux meta access p vals another h1 hl h2 h3 h4⟩

theorem C3_deny_list_amended_witness :
    race_blacklist c3compdb0 RACE_BLACKLIST c3another c3access = false ∧
    race_blacklist c3compdb0 [] c3another c3access = false ∧
    race_check_write_vs_writer c3meta c3access 2 [c3another] = some c3another :=
  ⟨C3_deny_list_amended.1 c3compdb0 RACE_BLACKLIST c3meta c3access 2 [c3another]
      c3another rfl,
   C3_deny_list_amended.2.1 c3compdb0 [] c3meta c3access 2 [c3another] c3another rfl,
   C3_deny_list_amended.2.2 c3compdb RACE_BLACKLIST c3meta c3access 2 [c3another]
      c3another (by decide) rfl (by decide) rfl rfl rfl⟩

/- ### C4: the interrupt-context skip condition -/

def c4hptid : Nat := ((1 <<< 9) <<< 16) + 3

def c4peerUnit : ExecUnit := .mk c4hptid none 5 0 .none .nil

def c4another : MemAccess := ⟨33, c4peerUnit, [], []⟩

def c4task : TaskState := TaskState.create 1

def c4access : MemAccess :=
  ⟨44, c4task.unit.clone, c4task.sync_locks.lockset_w, c4task.sync_trans.transet_w⟩

def c4A : AnState := { initAnState with cells := [(200, ⟨[], [(c4hptid, [c4another])]⟩)] }

def c4meta : LogMeta := ⟨1, 0, 44⟩

def c4compdb : Nat → List String := fun _ => []

theorem c4_read_aux (compdb : Nat → List String) (bl : List String) (meta : LogMeta)
    (access : MemAccess) (p : Nat) (vals : List MemAccess) (another : MemAccess)
    (h : race_check_read compdb bl meta access p vals = some another) :
    meta.ctxt = CtxtType.TASK ∨ CtxtType.from_ptid another.unit.ptid = CtxtType.TASK := by
  unfold race_check_read at h
  by_cases h1 : p = meta.ptid
  · simp [h1] at h
  · rw [if_neg h1] at h
    cases hl : vals.getLast? with
    | none => simp [hl] at h
    | some a =>
      simp only [hl] at h
      split_ifs at h with h2 h3 h4 h5 h6
      all_goals simp_all
      tauto

theorem c4_wvr_aux (compdb : Nat → List String) (bl : List String) (meta : LogMeta)
    (access : MemAccess) (p : Nat) (vals : List MemAccess) (another : MemAccess)
    (h : race_check_write_vs_reader compdb bl meta access p vals = some another) :
    meta.ctxt = CtxtType.TASK ∨ CtxtType.from_ptid another.unit.ptid = CtxtType.TASK := by
  unfold race_check_write_vs_reader at h
  by_cases h1 : p = meta.ptid
  · simp [h1] at h
  · rw [if_neg h1] at h
    cases hl : vals.getLast? with
    | none => simp [hl] at h
    | some a =>
      simp only [hl] at h
      split_ifs at h with h2 h3 h4 h5 h6
      all_goals simp_all
      tauto

theorem c4_www_aux (meta : LogMeta) (access : MemAccess) (p : Nat)
    (vals : List MemAccess) (another : MemAccess)
    (h : race_check_write_vs_writer meta access p vals = some another) :
    meta.ctxt = CtxtType.TASK ∨ CtxtType.from_ptid another.unit.ptid = CtxtType.TASK := by
  unfold race_check_write_vs_writer at h
  by_cases h1 : p = meta.ptid
  · simp [h1] at h
  · rw [if_neg h1] at h
    cases hl : vals.getLast? with
    | none => simp [hl] at h
    | some a =>
      simp only [hl] at h
      split_ifs at h with h2 h3 h4
      all_goals simp_all
      tauto

theorem c4_skip_aux (compdb : Nat → List String) (bl : List String) (meta : LogMeta)
    (access : MemAccess) (p : Nat) (vals : List MemAccess) (another : MemAccess)
    (hl : vals.getLast? = some another)
    (hm : meta.ctxt ≠ CtxtType.TASK)
    (ha : CtxtType.from_ptid another.unit.ptid ≠ CtxtType.TASK) :
    race_check_read compdb bl meta access p vals = none ∧
    race_check_write_vs_reader compdb bl meta access p vals = none ∧
    race_check_write_vs_writer meta access p vals = none := by
  refine ⟨?_, ?_, ?_⟩ <;>
    (first
      | unfold race_check_read
      | skip) <;>
    (first
      | unfold race_check_write_vs_reader
      | skip) <;>
    (first
      | unfold race_check_write_vs_writer
      | skip) <;>
    by_cases h1 : p = meta.ptid <;>
    simp [h1, hl, hm, ha]

/-- C4: the engine does not skip a pair just because one participant runs in
HARDIRQ context: a writer/writer pair whose peer has a HARDIRQ ptid and whose
current access runs in TASK context is still reported, and the race lands in
the aggregate table. -/
theorem C4_interrupt_skip_counterexample :
    CtxtType.from_ptid c4another.unit.ptid = CtxtType.HARDIRQ ∧
    c4meta.ctxt = CtxtType.TASK ∧
    race_check_write_vs_writer c4meta c4access c4hptid [c4another] = some c4another ∧
    alLookup (log_mem_cell_writer c4compdb RACE_BLACKLIST c4A c4meta c4task 200).races
      (33, 44) = some 1 := ⟨rfl, rfl, rfl, rfl⟩

/-- C4 (amended): all three race loops skip a candidate pair exactly when BOTH
participants run outside TASK context: a reported pair always has at least one
TASK-context participant, and when both the current access and the peer are in
interrupt context every loop returns no candidate. There is no special case for
HARDIRQ or BLOCK-softirq alone. -/
theorem C4_interrupt_skip_amended :
    (∀ (compdb : Nat → List String) (bl : List String) (meta : LogMeta)
        (access : MemAccess) (p : Nat) (vals : List MemAccess) (another : MemAccess),
      race_check_read compdb bl meta access p vals = some another →
      meta.ctxt = CtxtType.TASK ∨ CtxtType.from_ptid another.unit.ptid = CtxtType.TASK) ∧
    (∀ (compdb : Nat → List String) (bl : List String) (meta : LogMeta)
        (access : MemAccess) (p : Nat) (vals : List MemAccess) (another : MemAccess),
      race_check_write_vs_reader compdb bl meta access p vals = some another →
      meta.ctxt = CtxtType.TASK ∨ CtxtType.from_ptid another.unit.ptid = CtxtType.TASK) ∧
    (∀ (meta : LogMeta) (access : MemAccess) (p : Nat) (vals : List MemAccess)
        (another : MemAccess),
      race_check_write_vs_writer meta access p vals = some another →
      meta.ctxt = CtxtType.TASK ∨ CtxtType.from_ptid another.unit.ptid = CtxtType.TASK) ∧
    (∀ (compdb : Nat → List String) (bl : List String) (meta : LogMeta)
        (access : MemAccess) (p : Nat) (vals : List MemAccess) (another : MemAccess),
      vals.getLast? = some another →
      meta.ctxt ≠ CtxtType.TASK → CtxtType.from_ptid another.unit.ptid ≠ CtxtType.TASK →
      race_check_read compdb bl meta access p vals = none ∧
      race_check_write_vs_reader compdb bl meta access p vals = none ∧
      race_check_write_vs_writer meta access p vals = none) :=
  ⟨fun compdb bl meta access p vals another h =>
      c4_read_aux compdb bl meta access p vals another h,
   fun compdb bl meta access p vals another h =>
      c4_wvr_aux compdb bl meta access p vals another h,
   fun meta access p vals another h =>
      c4_www_aux meta access p vals another h,
   fun compdb bl meta access p vals another hl hm ha =>
      c4_skip_aux compdb bl meta access p vals another hl hm ha⟩

def c4imeta : LogMeta := ⟨((1 <<< 8) <<< 16) + 5, 0, 44⟩

theorem C4_interrupt_skip_amended_witness :
    (c4meta.ctxt = CtxtType.TASK ∨
      CtxtType.from_ptid c4another.unit.ptid = CtxtType.TASK) ∧
    (c4meta.ctxt = CtxtType.TASK ∨
      CtxtType.from_ptid c4another.unit.ptid = CtxtType.TASK) ∧
    (c4meta.ctxt = CtxtType.TASK ∨
      CtxtType.from_ptid c4another.unit.ptid = CtxtType.TASK) ∧
    (race_check_read c4compdb RACE_BLACKLIST c4imeta c4access c4hptid [c4another] = none ∧
     race_check_write_vs_reader c4compdb RACE_BLACKLIST c4imeta c4access c4hptid
        [c4another] = none ∧
     race_check_write_vs_writer c4imeta c4access c4hptid [c4another] = none) :=
  ⟨C4_interrupt_skip_amended.1 c4compdb RACE_BLACKLIST c4meta c4access c4hptid
      [c4another] c4another rfl,
   C4_interrupt_skip_amended.2.1 c4compdb RACE_BLACKLIST c4meta c4access c4hptid
      [c4another] c4another rfl,
   C4_interrupt_skip_amended.2.2.1 c4meta c4access c4hptid [c4another] c4another rfl,
   C4_interrupt_skip_amended.2.2.2 c4compdb RACE_BLACKLIST c4imeta c4access c4hptid
      [c4another] c4another rfl (by decide) (by decide)⟩

/- ### C8: heap alloc/free round trip -/

theorem alErase_alInsert_of_notmem {α β : Type} [DecidableEq α]
    (l : List (α × β)) (k : α) (v : β) (h : alLookup l k = none) :
    alErase (alInsert l k v) k = l := by
  induction l with
  | nil => simp [alInsert, alErase]
  | cons hd t ih =>
    obtain ⟨k0, v0⟩ := hd
    rw [alLookup] at h
    by_cases hk : k0 = k
    · rw [if_pos hk] at h
      exact absurd h (by simp)
    · rw [if_neg hk] at h
      rw [alInsert, if_neg hk, alErase, if_neg hk, ih h]

theorem alErase_comm {α β : Type} [DecidableEq α]
    (l : List (α × β)) (k1 k2 : α) (hne : k1 ≠ k2) :
    alErase (alErase l k1) k2 = alErase (alErase l k2) k1 := by
  induction l with
  | nil => simp [alErase]
  | cons hd t ih =>
    obtain ⟨k0, v0⟩ := hd
    by_cases h1 : k0 = k1
    · have h2 : ¬ k0 = k2 := by rw [h1]; exact hne
      rw [alErase, if_pos h1, alErase, if_neg h2, alErase, if_pos h1]
    · by_cases h2 : k0 = k2
      · rw [alErase, if_neg h1, alErase, if_pos h2, alErase, if_pos h2]
      · rw [alErase, if_neg h1, alErase, if_neg h2, alErase, if_neg h2,
          alErase, if_neg h1, ih]

theorem mem_repo_add_lookup_below (repo : List (Nat × Nat)) (addr size hval k : Nat)
    (repo2 : List (Nat × Nat)) (hk : k < addr)
    (h : mem_repo_add repo addr size hval = .ok repo2) :
    alLookup repo2 k = alLookup repo k := by
  induction size generalizing repo addr with
  | zero =>
    rw [mem_repo_add] at h
    injection h with h0
    rw [h0]
  | succ n ih =>
    rw [mem_repo_add] at h
    split_ifs at h with h1
    have := ih (alInsert repo addr hval) (addr + 1) (by omega) h
    rw [this, alLookup_alInsert_ne]
    omega

theorem mem_repo_del_alErase_below (repo : List (Nat × Nat)) (addr size k : Nat)
    (repo2 : List (Nat × Nat)) (hk : k < addr)
    (h : mem_repo_del repo addr size = .ok repo2) :
    mem_repo_del (alErase repo k) addr size = .ok (alErase repo2 k) := by
  induction size generalizing repo addr with
  | zero =>
    rw [mem_repo_del] at h
    injection h with h0
    rw [mem_repo_del, h0]
  | succ n ih =>
    rw [mem_repo_del] at h
    split_ifs at h with h1
    · rw [mem_repo_del, if_pos (by rw [alLookup_alErase_ne _ _ _ (by omega : addr ≠ k)]; exact h1)]
      rw [alErase_comm _ _ _ (by omega : k ≠ addr)]
      exact ih (alErase repo addr) (addr + 1) (by omega) h

theorem mem_repo_round_trip (size : Nat) : ∀ (repo : List (Nat × Nat)) (addr hval : Nat),
    (∀ i, i < size → alLookup repo (addr + i) = none) →
    ∃ repo2, mem_repo_add repo addr size hval = .ok repo2 ∧
      mem_repo_del repo2 addr size = .ok repo := by
  induction size with
  | zero =>
    intro repo addr hval _
    exact ⟨repo, rfl, rfl⟩
  | succ n ih =>
    intro repo addr hval hfree
    have h0 : alLookup repo addr = none := by simpa using hfree 0 (by omega)
    have hfree1 : ∀ i, i < n → alLookup (alInsert repo addr hval) (addr + 1 + i) = none := by
      intro i hi
      rw [alLookup_alInsert_ne _ _ _ _ (by omega : addr ≠ addr + 1 + i)]
      have := hfree (i + 1) (by omega)
      have harr : addr + (i + 1) = addr + 1 + i := by omega
      rw [harr] at this
      exact this
    obtain ⟨repo2, hadd, hdel⟩ := ih (alInsert repo addr hval) (addr + 1) hval hfree1
    refine ⟨repo2, ?_, ?_⟩
    · rw [mem_repo_add, if_neg (by rw [h0]; simp)]
      exact hadd
    · have hlk : alLookup repo2 addr = some hval := by
        rw [mem_repo_add_lookup_below _ _ _ _ _ _ (by omega : addr < addr + 1) hadd]
        exact alLookup_alInsert_self _ _ _
      rw [mem_repo_del, if_pos (by rw [hlk]; simp)]
      have := mem_repo_del_alErase_below _ _ _ addr _ (by omega : addr < addr + 1) hdel
      rw [alErase_alInsert_of_notmem _ _ _ h0] at this
      exact this

theorem mem_repo_add_fails (size : Nat) : ∀ (repo : List (Nat × Nat)) (addr hval i : Nat),
    i < size → (alLookup repo (addr + i)).isSome = true →
    ∀ repo2, mem_repo_add repo addr size hval ≠ .ok repo2 := by
  induction size with
  | zero => intro repo addr hval i hi; omega
  | succ n ih =>
    intro repo addr hval i hi hsome repo2 h
    rw [mem_repo_add] at h
    split_ifs at h with h1
    · cases i with
      | zero => simp at hsome; exact h1 (by simpa using hsome)
      | succ j =>
        refine ih (alInsert repo addr hval) (addr + 1) hval j (by omega) ?_ repo2 h
        rw [alLookup_alInsert_ne _ _ _ _ (by omega : addr ≠ addr + 1 + j)]
        have harr : addr + 1 + j = addr + (j + 1) := by omega
        rw [harr]
        exact hsome

theorem log_mem_heap_alloc_ok (A : AnState) (meta : LogMeta) (task : TaskState)
    (addr size : Nat) (repo2 : List (Nat × Nat))
    (hadd : mem_repo_add A.mem_heaps addr size meta.hval = .ok repo2)
    (hsz : alLookup A.mem_sizes_heap addr = none) :
    log_mem_heap_alloc A meta task addr size = .ok
      { A with mem_heaps := repo2,
               mem_sizes_heap := alInsert A.mem_sizes_heap addr size,
               console := A.console ++
                 [RLine.memAddLine meta.ptid task.unit.seq addr size "H"] } := by
  rw [log_mem_heap_alloc]
  simp only [Bind.bind, Except.bind, hadd, hsz, Option.isSome_none,
    Bool.false_eq_true, if_false, pure, Except.pure]

theorem log_mem_heap_free_ok (A1 : AnState) (meta : LogMeta) (task : TaskState)
    (addr size : Nat) (repo3 : List (Nat × Nat))
    (hsz : alLookup A1.mem_sizes_heap addr = some size)
    (hdel : mem_repo_del A1.mem_heaps addr size = .ok repo3) :
    log_mem_heap_free A1 meta task addr = .ok
      { A1 with mem_heaps := repo3,
                mem_sizes_heap := alErase A1.mem_sizes_heap addr,
                console := A1.console ++
                  [RLine.memDelLine meta.ptid task.unit.seq addr size "H"] } := by
  rw [log_mem_heap_free]
  simp only [hsz, Bind.bind, Except.bind, hdel, pure, Except.pure]

/-- C8: heap alloc/free round trip — when no byte of [addr, addr+size) is in the
heap byte map and addr is absent from the heap size map, alloc(addr, size)
succeeds, the following free(addr) succeeds, and both maps return to their
prior state; alloc fails when some byte of the range is already mapped, and
free fails when addr is not in the size map. -/
theorem C8_heap_round_trip :
    (∀ (A : AnState) (meta task meta2 task2 : LogMeta × TaskState) (addr size : Nat),
      (∀ i, i < size → alLookup A.mem_heaps (addr + i) = none) →
      alLookup A.mem_sizes_heap addr = none →
      isOkE (log_mem_heap_alloc A meta.1 task.2 addr size) = true ∧
      isOkE (log_mem_heap_free (exOk (log_mem_heap_alloc A meta.1 task.2 addr size))
        meta2.1 task2.2 addr) = true ∧
      (exOk (log_mem_heap_free (exOk (log_mem_heap_alloc A meta.1 task.2 addr size))
        meta2.1 task2.2 addr)).mem_heaps = A.mem_heaps ∧
      (exOk (log_mem_heap_free (exOk (log_mem_heap_alloc A meta.1 task.2 addr size))
        meta2.1 task2.2 addr)).mem_sizes_heap = A.mem_sizes_heap) ∧
    (∀ (A : AnState) (meta : LogMeta) (task : TaskState) (addr size i : Nat),
      i < size → (alLookup A.mem_heaps (addr + i)).isSome = true →
      isOkE (log_mem_heap_alloc A meta task addr size) = false) ∧
    (∀ (A : AnState) (meta : LogMeta) (task : TaskState) (addr : Nat),
      alLookup A.mem_sizes_heap addr = none →
      log_mem_heap_free A meta task addr = .error "memory size del without add") := by
  refine ⟨?_, ?_, ?_⟩
  · intro A meta task meta2 task2 addr size hfree hsz
    obtain ⟨repo2, hadd, hdel⟩ := mem_repo_round_trip size A.mem_heaps addr meta.1.hval hfree
    have halloc := log_mem_heap_alloc_ok A meta.1 task.2 addr size repo2 hadd hsz
    rw [halloc]
    have hsz2 : alLookup (alInsert A.mem_sizes_heap addr size) addr = some size :=
      alLookup_alInsert_self _ _ _
    have hfree2 := log_mem_heap_free_ok
      { A with mem_heaps := repo2,
               mem_sizes_heap := alInsert A.mem_sizes_heap addr size,
               console := A.console ++
                 [RLine.memAddLine meta.1.ptid task.2.unit.seq addr size "H"] }
      meta2.1 task2.2 addr size A.mem_heaps hsz2 hdel
    rw [exOk, hfree2]
    refine ⟨rfl, rfl, rfl, ?_⟩
    rw [exOk]
    exact alErase_alInsert_of_notmem _ _ _ hsz
  · intro A meta task addr size i hi hsome
    rw [log_mem_heap_alloc]
    cases hadd : mem_repo_add A.mem_heaps addr size meta.hval with
    | ok r => exact absurd hadd (mem_repo_add_fails size A.mem_heaps addr meta.hval i hi hsome r)
    | error e =>
      simp only [Bind.bind, Except.bind, isOkE]
  · intro A meta task addr hsz
    rw [log_mem_heap_free, hsz]
    rfl

theorem C8_heap_round_trip_witness :
    (isOkE (log_mem_heap_alloc initAnState ⟨1, 0, 5⟩ (TaskState.create 1) 1000 3) = true ∧
     isOkE (log_mem_heap_free (exOk (log_mem_heap_alloc initAnState ⟨1, 0, 5⟩
        (TaskState.create 1) 1000 3)) ⟨1, 0, 6⟩ (TaskState.create 1) 1000) = true ∧
     (exOk (log_mem_heap_free (exOk (log_mem_heap_alloc initAnState ⟨1, 0, 5⟩
        (TaskState.create 1) 1000 3)) ⟨1, 0, 6⟩ (TaskState.create 1) 1000)).mem_heaps =
       initAnState.mem_heaps ∧
     (exOk (log_mem_heap_free (exOk (log_mem_heap_alloc initAnState ⟨1, 0, 5⟩
        (TaskState.create 1) 1000 3)) ⟨1, 0, 6⟩ (TaskState.create 1) 1000)).mem_sizes_heap =
       initAnState.mem_sizes_heap) ∧
    isOkE (log_mem_heap_alloc { initAnState with mem_heaps := [(1001, 9)] }
      ⟨1, 0, 5⟩ (TaskState.create 1) 1000 3) = false ∧
    log_mem_heap_free initAnState ⟨1, 0, 6⟩ (TaskState.create 1) 1000 =
      .error "memory size del without add" :=
  ⟨C8_heap_round_trip.1 initAnState (⟨1, 0, 5⟩, TaskState.create 1)
      (⟨1, 0, 5⟩, TaskState.create 1) (⟨1, 0, 6⟩, TaskState.create 1)
      (⟨1, 0, 6⟩, TaskState.create 1) 1000 3 (fun i _ => rfl) rfl,
   C8_heap_round_trip.2.1 { initAnState with mem_heaps := [(1001, 9)] }
      ⟨1, 0, 5⟩ (TaskState.create 1) 1000 3 1 (by omega) rfl,
   C8_heap_round_trip.2.2 initAnState ⟨1, 0, 6⟩ (TaskState.create 1) 1000 rfl⟩
